import Mathlib

/-!
Verification development for the teams-win-index pipeline.

The repository is a batch pipeline over CSV tables:
raw league feeds → loaders (`load_historical_nhl.py`, `load_historical_nba.py`)
→ canonical `games.csv`/`teams.csv`/`cities.csv`
→ ledger builder (`compute_team_game_results.py`)
→ rollups (`rollups.py`) and daily 7-day aggregation (`build_city_daily_agg.py`).

We embed the row-level data model and the per-row transforms shallowly:
CSV cells are Lean `String`s (a missing cell / pandas `NaN` is modelled as
the empty string, which the scripts treat identically after `str(...).strip()`),
machine integers are `Int`, and fallible stages return `Except`.
Python string primitives are re-implemented over `List Char`.
-/

/-- Python `str.strip()` on the character list: drop whitespace from both ends. -/
def stripChars (cs : List Char) : List Char :=
  ((cs.dropWhile Char.isWhitespace).reverse.dropWhile Char.isWhitespace).reverse

/-- Python `str.strip()`. -/
def pyStrip (s : String) : String := ⟨stripChars s.data⟩

/-- Python `str.lower()` (ASCII is all that the data contains). -/
def pyLower (s : String) : String := ⟨s.data.map Char.toLower⟩

/-- Model of `slugify` from `load_historical_nhl.py`:
`text.strip().lower().replace(" ", "-").replace(".", "").replace("/", "-")`.
All three replacements are single-character, so they act characterwise. -/
def slugify (s : String) : String :=
  ⟨((stripChars s.data).map Char.toLower).filterMap (fun c =>
      if c = ' ' then some '-'
      else if c = '.' then none
      else if c = '/' then some '-'
      else some c)⟩

/-- Value of a nonempty all-digit character list, `none` otherwise. -/
def digitsVal (ds : List Char) : Option Nat :=
  if ds ≠ [] ∧ ds.all Char.isDigit then
    some (ds.foldl (fun a c => a * 10 + (c.toNat - 48)) 0)
  else none

/-- Python `int(s)` on a string: optional sign, digits; raises (`none`) on
anything else (e.g. `int("4.0")` raises); surrounding whitespace is ignored. -/
def pyInt (s : String) : Option Int :=
  match stripChars s.data with
  | '-' :: ds => (digitsVal ds).map (fun n => -(n : Int))
  | '+' :: ds => (digitsVal ds).map (fun n => (n : Int))
  | ds => (digitsVal ds).map (fun n => (n : Int))

/-- One score cell, `compute_team_game_results.py` lines 59-60:
`int(v) if pd.notna(v) and str(v).strip() != "" else None`.
The outer `some` layer distinguishes a clean `None` (blank cell) from the
`int()` conversion raising (`none` = exception). -/
def parseScoreField (s : String) : Option (Option Int) :=
  if pyStrip s = "" then some none else (pyInt s).map some

/-- The `try`/`except` block of lines 58-63: an exception while converting
either score makes both scores `None`. -/
def parseScores (hs aws : String) : Option Int × Option Int :=
  match parseScoreField hs, parseScoreField aws with
  | some h, some a => (h, a)
  | _, _ => (none, none)

/-- Line 64: `str(v) if pd.notna(v) and str(v).strip() != "" else None`. -/
def parseWinner (s : String) : Option String :=
  if pyStrip s = "" then none else some s

/-- A row of the canonical `games.csv` table (spec §3 `Game`). -/
structure GameRow where
  game_id : String
  date : String
  league : String
  season_type : String
  home_team_id : String
  away_team_id : String
  home_score : String
  away_score : String
  winning_team_id : String
deriving DecidableEq, Repr

/-- A row of the `team_game_results.csv` ledger (spec §3 `TeamGameResult`),
without the `week_start`/`month_start` columns that are appended afterwards. -/
structure LedgerRow where
  game_id : String
  date : String
  league : String
  season_type : String
  team_id : String
  opponent_team_id : String
  is_home : Bool
  team_score : Option Int
  opponent_score : Option Int
  result : String
  index_score : Int
  weighted_score : Int
deriving DecidableEq, Repr

/-- Lookup in a JSON-dict-like association list with a fallback,
Python `weights.get(key, fallback)`. -/
def dictGet (d : List (String × Int)) (k : String) (fallback : Int) : Int :=
  match d.find? (fun kv => kv.1 = k) with
  | some kv => kv.2
  | none => fallback

/-- The literal default weights of `load_scoring_weights`
(`compute_team_game_results.py` lines 16-21). -/
def defaultScoringWeights : List (String × Int) :=
  [("regular_season_win", 1), ("regular_season_loss", -1),
   ("playoff_win", 3), ("playoff_loss", -3)]

/-- Model of `load_scoring_weights` (lines 13-22): the parsed `config/scoring.json`
when the file exists, else the built-in defaults. The optional file is
modelled as an `Option` of its parsed content. -/
def load_scoring_weights (cfg : Option (List (String × Int))) : List (String × Int) :=
  cfg.getD defaultScoringWeights

/-- Result letter and base score for one perspective (lines 66-77): with both
scores present and a winner recorded, "W" (+1) exactly when `winning_team_id`
equals this perspective's team id, else "L" (-1); otherwise "" (0).
The code writes this out twice (home and away); the perspective's own id is
the only thing that differs. -/
def base_outcome (home_score away_score : Option Int) (winning : Option String)
    (my_id : String) : String × Int :=
  match home_score, away_score, winning with
  | some _, some _, some w => (if w = my_id then "W" else "L", if w = my_id then 1 else -1)
  | _, _, _ => ("", 0)

/-- Weight selection for one perspective (lines 79-94): by sign of the base
score, look up the `(season_type, outcome)` key with fallback `1`/`-1`;
a neutral base gets weight `0`. -/
def outcome_weight (weights : List (String × Int)) (season_type : String)
    (base : Int) : Int :=
  if base = 1 then
    dictGet weights (if season_type = "playoff" then "playoff_win" else "regular_season_win") 1
  else if base = -1 then
    dictGet weights (if season_type = "playoff" then "playoff_loss" else "regular_season_loss") (-1)
  else 0

/-- One perspective row appended by `compute_master` (lines 96-123).
`is_home = true` gives the home perspective. `weighted = base * abs(weight)`. -/
def perspective_row (weights : List (String × Int)) (g : GameRow) (is_home : Bool) :
    LedgerRow :=
  let date_str := g.date.take 10
  let league := pyLower g.league
  let season_type := pyLower g.season_type
  let home_id := g.home_team_id
  let away_id := g.away_team_id
  let scores := parseScores g.home_score g.away_score
  let winning := parseWinner g.winning_team_id
  let my_id := if is_home then home_id else away_id
  let opp_id := if is_home then away_id else home_id
  let rb := base_outcome scores.1 scores.2 winning my_id
  let weight := outcome_weight weights season_type rb.2
  { game_id := g.game_id
    date := date_str
    league := league
    season_type := season_type
    team_id := my_id
    opponent_team_id := opp_id
    is_home := is_home
    team_score := if is_home then scores.1 else scores.2
    opponent_score := if is_home then scores.2 else scores.1
    result := rb.1
    index_score := rb.2
    weighted_score := rb.2 * (weight.natAbs : Int) }

/-- The two ledger rows one game contributes (`rows.append` at lines 96-123):
home perspective first, then away. -/
def compute_game_rows (weights : List (String × Int)) (g : GameRow) : List LedgerRow :=
  [perspective_row weights g true, perspective_row weights g false]

/-- The full ledger body built by the loop of `compute_master` (lines 56-123):
two perspective rows per game, in input order.  (The final
`sort_values` only permutes rows and is not modelled.) -/
def compute_master_rows (weights : List (String × Int)) (games : List GameRow) :
    List LedgerRow :=
  games.flatMap (compute_game_rows weights)

/-- The configured weight for a `(season_type, win-or-loss)` combination as
the spec describes it: the external configuration keyed by the four key
strings, with the code's fallbacks `1`/`-1`. -/
def configuredWeight (weights : List (String × Int)) (season_type : String)
    (isWin : Bool) : Int :=
  if isWin then
    dictGet weights (if season_type = "playoff" then "playoff_win" else "regular_season_win") 1
  else
    dictGet weights (if season_type = "playoff" then "playoff_loss" else "regular_season_loss") (-1)

/-- Python `split(" ")[0]` on a string: the prefix up to the first space. -/
def beforeFirstSpace (s : String) : String :=
  ⟨s.data.takeWhile (fun c => ¬ c = ' ')⟩

/-- Lookup `abbrev_to_team_id.get(abbrev, f"nba_{abbrev}")` in `load_historical_nba.py`. -/
def nba_abbrev_team_id (abbrevMap : List (String × String)) (ab : String) : String :=
  match abbrevMap.find? (fun kv => kv.1 = ab) with
  | some kv => kv.2
  | none => "nba_" ++ ab

/-- One canonical game row emitted by the NBA loader
(`load_historical_nba.py` lines 174-197): scores are hard-coded to the
empty string; the winner abbreviation resolves through the roster map when
non-blank.  `winner_abbrev` is the raw cell (a pandas `NaN` is the empty
string here, matching `... if pd.notna(...) else ""`). -/
def nba_game_row (abbrevMap : List (String × String))
    (gid gdate home_abbrev away_abbrev winner_abbrev : String) : GameRow :=
  { game_id := "nba_" ++ pyStrip gid
    date := beforeFirstSpace gdate
    league := "nba"
    season_type := "regular"
    home_team_id := nba_abbrev_team_id abbrevMap (pyStrip home_abbrev)
    away_team_id := nba_abbrev_team_id abbrevMap (pyStrip away_abbrev)
    home_score := ""
    away_score := ""
    winning_team_id :=
      if pyStrip winner_abbrev = "" then ""
      else nba_abbrev_team_id abbrevMap (pyStrip winner_abbrev) }

/-- A sample decisive game used to instantiate universally quantified
theorems on a concrete input. -/
def sampleGame : GameRow :=
  { game_id := "nhl_2023-03-01_vegas-golden-knights_toronto-maple-leafs"
    date := "2023-03-01"
    league := "NHL"
    season_type := "Regular"
    home_team_id := "nhl_toronto-maple-leafs"
    away_team_id := "nhl_vegas-golden-knights"
    home_score := "2"
    away_score := "4"
    winning_team_id := "nhl_vegas-golden-knights" }

/-- A sample game with blank scores (unknown outcome). -/
def sampleIncompleteGame : GameRow :=
  { game_id := "g2", date := "2023-03-02", league := "nhl", season_type := "regular"
    home_team_id := "A", away_team_id := "B"
    home_score := "", away_score := "", winning_team_id := "" }

/-- A decisive-looking game whose recorded winner is neither participant. -/
def strayWinnerGame : GameRow :=
  { game_id := "g3", date := "2023-03-03", league := "nhl", season_type := "regular"
    home_team_id := "A", away_team_id := "B"
    home_score := "2", away_score := "1", winning_team_id := "C" }


/-! ## The NHL historical loader (`load_historical_nhl.py`) -/

/-- Python `s.endswith(p)`. -/
def pyEndsWith (s p : String) : Bool := decide (p.data <:+ s.data)

/-- Python `s[:-n]` for `n = 0` is the empty string, otherwise all but the
last `n` characters. -/
def pySliceDropRight (s : String) (n : Nat) : String :=
  if n = 0 then "" else ⟨s.data.take (s.data.length - n)⟩

/-- Helper for Python `name.rsplit(" ", 1)`: locate the last space, returning
the characters before and after it. -/
def rsplitLastSpaceAux : List Char → Option (List Char × List Char)
  | [] => none
  | c :: cs =>
      match rsplitLastSpaceAux cs with
      | some (l, r) => some (c :: l, r)
      | none => if c = ' ' then some ([], cs) else none

/-- Python `name.rsplit(" ", 1)` as the pair `(parts[0], parts[1])`; the code
only calls it when a space is present. -/
def rsplitLastSpace (s : String) : String × String :=
  match rsplitLastSpaceAux s.data with
  | some (l, r) => (⟨l⟩, ⟨r⟩)
  | none => (s, "")

/-- The curated multi-word nickname set of `load_historical_nhl.py`
(a Python set literal; modelled as a list in source order — proved
order-independent for suffix matching below). -/
def MULTIWORD_NICKNAMES : List String :=
  ["Maple Leafs", "Blue Jackets", "Golden Knights", "Red Wings"]

/-- Model of `split_city_team` (`load_historical_nhl.py` lines 34-58, and the
parameterised copy in `concat_leagues_with_city.py` lines 48-61): strip the
name; try each curated multi-word nickname as a suffix; fall back to
splitting at the last space. -/
def split_city_team (nicknames : List String) (full_name : String) : String × String :=
  let name := pyStrip full_name
  if name = "" then ("", "")
  else
    match nicknames.find? (fun nick => pyEndsWith name nick) with
    | some nick =>
        let city := pyStrip (pySliceDropRight name nick.length)
        let city2 := if pyEndsWith city " " then pySliceDropRight city 1 else city
        (city2, nick)
    | none =>
        if ' ' ∈ name.data then rsplitLastSpace name else (name, "")

/-- A row of the canonical `cities.csv` table (spec §3 `City`). -/
structure CityRow where
  city_id : String
  city_name : String
  state : String
  country : String
  slug : String
deriving DecidableEq, Repr

/-- A row of the canonical `teams.csv` table (spec §3 `Team`). -/
structure TeamRow where
  team_id : String
  team_name : String
  league : String
  city_id : String
  city_name : String
  start_date : String
  end_date : String
  alt_names : String
deriving DecidableEq, Repr

/-- The three persisted canonical tables the loaders merge into. -/
structure PipelineTables where
  cities : List CityRow
  teams : List TeamRow
  games : List GameRow
deriving DecidableEq, Repr

/-- One row of the raw NHL feed `nhl_season_games_2018_2025.csv`.  The goal
cells are modelled post-parse: `int(float(v)) if pd.notna(v) else None`, with
the `try`/`except` collapse already applied. -/
structure NHLRawRow where
  date : String
  away : String
  home : String
  awayGoals : Option Int
  homeGoals : Option Int
  gameType : String
deriving DecidableEq, Repr

/-- The new-city row appended for a freshly seen city name
(`load_historical_nhl.py` lines 128-145). -/
def city_row_of (city : String) : CityRow :=
  { city_id := slugify city, city_name := city, state := "", country := "USA"
    slug := slugify city }

/-- The new-team row appended for a freshly seen NHL full team name
(lines 147-175). -/
def team_row_of_nhl (full : String) : TeamRow :=
  let ct := split_city_team MULTIWORD_NICKNAMES full
  { team_id := "nhl_" ++ slugify full, team_name := full, league := "nhl"
    city_id := slugify ct.1, city_name := ct.1
    start_date := "", end_date := "", alt_names := ct.2 }

/-- Conditionally append a keyed row: the shared shape of the
`if <key> not in existing_<ids>: append; add` blocks of the loader loop.
The accumulator carries the built rows and the id set (as a list). -/
def keyed_append {α β : Type} (key : α → String) (mk : α → β) (guard : α → Prop)
    [DecidablePred guard] (acc : List β × List String) (x : α) :
    List β × List String :=
  if guard x ∧ key x ∉ acc.2 then (acc.1 ++ [mk x], acc.2 ++ [key x]) else acc

/-- City-name occurrences in loader-loop order: for each raw row, away city
then home city (both sides of lines 120-145). -/
def nhl_city_candidates (raw : List NHLRawRow) : List String :=
  raw.flatMap (fun r =>
    [(split_city_team MULTIWORD_NICKNAMES (pyStrip r.away)).1,
     (split_city_team MULTIWORD_NICKNAMES (pyStrip r.home)).1])

/-- Full-team-name occurrences in loader-loop order (lines 147-175). -/
def nhl_team_candidates (raw : List NHLRawRow) : List String :=
  raw.flatMap (fun r => [pyStrip r.away, pyStrip r.home])

/-- The `new_city_rows` built by the loop, given the pre-seeded
`existing_city_ids` (line 104): append only when the city name is non-empty
and its slug id is unseen. -/
def process_cities (cands : List String) (ids0 : List String) : List CityRow :=
  (cands.foldl (keyed_append slugify city_row_of (fun c => c ≠ "")) ([], ids0)).1

/-- The `new_team_rows` built by the loop, given the pre-seeded
`existing_team_ids` (line 105): append whenever the namespaced id is unseen
(no non-emptiness guard in the code). -/
def process_teams (cands : List String) (ids0 : List String) : List TeamRow :=
  (cands.foldl (keyed_append (fun full => "nhl_" ++ slugify full) team_row_of_nhl
    (fun _ => True)) ([], ids0)).1

/-- The canonical game row built from one raw NHL row (lines 108-205):
dates are cut at the first space, season type is "playoff" iff the lowercased
`Type` cell contains "playoff", the winner is decided by goal comparison
(blank on a tie or missing goals), and scores are re-rendered as strings
(blank when missing). -/
def nhl_game_of (r : NHLRawRow) : GameRow :=
  let date := beforeFirstSpace (pyStrip r.date)
  let away_full := pyStrip r.away
  let home_full := pyStrip r.home
  let season_type :=
    if ("playoff".data <:+: (pyLower r.gameType).data) then "playoff" else "regular"
  let away_team_id := "nhl_" ++ slugify away_full
  let home_team_id := "nhl_" ++ slugify home_full
  let winning :=
    match r.awayGoals, r.homeGoals with
    | some a, some h =>
        if a > h then away_team_id else if h > a then home_team_id else ""
    | _, _ => ""
  { game_id := "nhl_" ++ date ++ "_" ++ slugify away_full ++ "_" ++ slugify home_full
    date := date
    league := "nhl"
    season_type := season_type
    home_team_id := home_team_id
    away_team_id := away_team_id
    home_score := match r.homeGoals with | some n => toString n | none => ""
    away_score := match r.awayGoals with | some n => toString n | none => ""
    winning_team_id := winning }

/-- Model of `drop_duplicates(subset=["game_id"], keep="first")` (line 213): keep the
first row seen for each key, preserving order. -/
def dedupAux {α : Type} (key : α → String) (seen : List String) : List α → List α
  | [] => []
  | x :: xs =>
      if key x ∈ seen then dedupAux key seen xs
      else x :: dedupAux key (key x :: seen) xs

/-- Keep-first dedup of game rows by `game_id`. -/
def drop_duplicates_games (rows : List GameRow) : List GameRow :=
  dedupAux (fun g => g.game_id) [] rows

/-- The game-table merge of lines 207-216: `if new_game_rows:` concatenate
with the persisted rows and dedup keep-first by `game_id` — but when the
persisted table is empty the new rows are taken as-is (no dedup). -/
def merge_games (persisted new : List GameRow) : List GameRow :=
  if new = [] then persisted
  else if persisted = [] then new
  else drop_duplicates_games (persisted ++ new)

/-- Model of `load_nhl` (lines 61-222) as a state transform on the three persisted
canonical tables: empty raw input skips the run; otherwise new city/team rows
are appended when their ids are unseen, and the new game rows are concatenated
and deduped by `game_id` keep-first — except that when the persisted games
table is empty the new rows are taken as-is, without dedup (lines 211-216). -/
def load_nhl (raw : List NHLRawRow) (t : PipelineTables) : PipelineTables :=
  if raw = [] then t
  else
    let new_cities := process_cities (nhl_city_candidates raw)
      (t.cities.map (fun c => c.city_id))
    let new_teams := process_teams (nhl_team_candidates raw)
      (t.teams.map (fun tm => tm.team_id))
    let new_games := raw.map nhl_game_of
    { cities := if new_cities = [] then t.cities else t.cities ++ new_cities
      teams := if new_teams = [] then t.teams else t.teams ++ new_teams
      games := merge_games t.games new_games }

/-- A raw NHL row (Vegas wins 4-2 in Toronto). -/
def nhlRawVegasToronto : NHLRawRow :=
  { date := "2023-01-01", away := "Vegas Golden Knights", home := "Toronto Maple Leafs"
    awayGoals := some 4, homeGoals := some 2, gameType := "Regular Season" }

/-- A second raw row for the same fixture (same date and teams, hence the
same derived `game_id`) with different goals. -/
def nhlRawVegasTorontoDup : NHLRawRow :=
  { date := "2023-01-01", away := "Vegas Golden Knights", home := "Toronto Maple Leafs"
    awayGoals := some 3, homeGoals := some 2, gameType := "Regular Season" }

/-- Freshly initialised canonical tables (all three files absent or empty). -/
def emptyTables : PipelineTables := { cities := [], teams := [], games := [] }

/-! ## Grouped aggregation (pandas `groupby(...).agg(...)`) -/

/-- Add one row to the group of key `k`, appending a fresh group at the end
when the key is new.  Building groups by a single pass models pandas
`groupby`: only the multiset of rows per key matters to the aggregates (the
row order of the emitted tables is not modelled). -/
def insertGroup {κ α : Type} [DecidableEq κ] (acc : List (κ × List α)) (k : κ)
    (r : α) : List (κ × List α) :=
  match acc with
  | [] => [(k, [r])]
  | e :: rest => if e.1 = k then (e.1, e.2 ++ [r]) :: rest else e :: insertGroup rest k r

/-- Group a table by a key function. -/
def groupAccum {κ α : Type} [DecidableEq κ] (key : α → κ) (rows : List α) :
    List (κ × List α) :=
  rows.foldl (fun acc r => insertGroup acc (key r) r) []

/-- The rows grouped under key `k` (empty when the key is absent). -/
def groupOf {κ α : Type} [DecidableEq κ] (acc : List (κ × List α)) (k : κ) :
    List α :=
  match acc.find? (fun e => e.1 = k) with
  | some e => e.2
  | none => []

/-- One row of a weekly/monthly rollup table:
`.agg(index_score_sum=..., weighted_score_sum=..., games=...)`
(`rollups.py` lines 35-46 and 49-60). -/
structure AggRow (κ : Type) where
  key : κ
  index_score_sum : Int
  weighted_score_sum : Int
  games : Nat
deriving DecidableEq, Repr

/-- Aggregate each group: sum the two score columns and count rows. -/
def agg_groups {κ α : Type} (v1 v2 : α → Int) (groups : List (κ × List α)) :
    List (AggRow κ) :=
  groups.map (fun kg =>
    { key := kg.1
      index_score_sum := (kg.2.map v1).sum
      weighted_score_sum := (kg.2.map v2).sum
      games := kg.2.length })

/-! ## Rollups (`rollups.py`) -/

/-- The `team_cols` projection of the master ledger that `compute_rollups`
works on (lines 28-34). -/
structure RollupInputRow where
  league : String
  team_id : String
  week_start : String
  month_start : String
  index_score : Int
  weighted_score : Int
deriving DecidableEq, Repr

/-- The `team_weekly` table (lines 36-39): group by `(league, team_id, week_start)`,
summing both scores and counting rows as `games`. -/
def team_rollup_weekly (master : List RollupInputRow) :
    List (AggRow (String × String × String)) :=
  agg_groups (fun r => r.index_score) (fun r => r.weighted_score)
    (groupAccum (fun r => (r.league, r.team_id, r.week_start)) master)

/-- The `team_monthly` table (lines 40-43). -/
def team_rollup_monthly (master : List RollupInputRow) :
    List (AggRow (String × String × String)) :=
  agg_groups (fun r => r.index_score) (fun r => r.weighted_score)
    (groupAccum (fun r => (r.league, r.team_id, r.month_start)) master)

/-- Model of `teams.set_index("team_id")["city_id"].to_dict()` (line 50): a dict built
left to right, so a later row with the same `team_id` overwrites an earlier
one — the lookup finds the last matching row. -/
def team_to_city (teams : List TeamRow) (tid : String) : Option String :=
  (teams.reverse.find? (fun tm => tm.team_id = tid)).map (fun tm => tm.city_id)

/-- Lines 51-52: map each ledger row to its city and
`dropna(subset=["city_id"])` — rows whose team has no mapping are dropped. -/
def city_rollup_input (teams : List TeamRow) (master : List RollupInputRow) :
    List (String × RollupInputRow) :=
  master.filterMap (fun r => (team_to_city teams r.team_id).map (fun c => (c, r)))

/-- The `city_weekly` table (lines 54-57): group by `(city_id, week_start)`. -/
def city_rollup_weekly (teams : List TeamRow) (master : List RollupInputRow) :
    List (AggRow (String × String)) :=
  agg_groups (fun cr => cr.2.index_score) (fun cr => cr.2.weighted_score)
    (groupAccum (fun cr => (cr.1, cr.2.week_start)) (city_rollup_input teams master))

/-- The `city_monthly` table (lines 58-61). -/
def city_rollup_monthly (teams : List TeamRow) (master : List RollupInputRow) :
    List (AggRow (String × String)) :=
  agg_groups (fun cr => cr.2.index_score) (fun cr => cr.2.weighted_score)
    (groupAccum (fun cr => (cr.1, cr.2.month_start)) (city_rollup_input teams master))

/-! ## Daily 7-day city aggregation (`build_city_daily_agg.py`) -/

/-- Calendar dates are day numbers (days since 1970-01-01, all dates the
pipeline handles are after that), scores are `Int`. -/
abbrev DailyInputRow := Nat × Int

/-- The `(city, date)` daily aggregate of `index_score`, evaluated at one
day: the sum of the day's group (lines 31-34); `0` for a day with no rows,
which is exactly what `reindex(..., fill_value=0)` produces (line 41). -/
def daily_index_sum (rows : List DailyInputRow) (d : Nat) : Int :=
  ((groupOf (groupAccum (fun r => r.1) rows) d).map (fun r => r.2)).sum

/-- The day's `games` count (`.agg(games=("index_score", "count"))`),
`0` on reindexed gap days. -/
def daily_games (rows : List DailyInputRow) (d : Nat) : Int :=
  ((groupOf (groupAccum (fun r => r.1) rows) d).length : Int)

/-- Minimum of a list of day numbers (`g.index.min()`); the loader only
evaluates it on a non-empty city group. -/
def datesMin : List Nat → Nat
  | [] => 0
  | x :: xs => xs.foldl min x

/-- Maximum of a list of day numbers (`g.index.max()`). -/
def datesMax : List Nat → Nat
  | [] => 0
  | x :: xs => xs.foldl max x

/-- One output row of `city_daily_7d.csv` for a single city. -/
structure CityDailyRow where
  date : Nat
  index_sum : Int
  games : Int
  index_sum_7d : Int
  games_7d : Int
deriving DecidableEq, Repr

/-- The per-city body of `main` (lines 38-46): aggregate per day, reindex
onto the dense daily calendar `pd.date_range(min, max)` with zero fill, and
take the trailing `rolling(window=7, min_periods=1).sum()` over the
reindexed series — at position `i` the window covers positions
`i-6 .. i` (fewer at the start, never dropped thanks to `min_periods=1`). -/
def city_daily_7d (rows : List DailyInputRow) : List CityDailyRow :=
  if rows = [] then []
  else
    let dmin := datesMin (rows.map Prod.fst)
    let dmax := datesMax (rows.map Prod.fst)
    let n := dmax + 1 - dmin
    let vals := (List.range n).map (fun j => daily_index_sum rows (dmin + j))
    let cnts := (List.range n).map (fun j => daily_games rows (dmin + j))
    (List.range n).map (fun i =>
      { date := dmin + i
        index_sum := daily_index_sum rows (dmin + i)
        games := daily_games rows (dmin + i)
        index_sum_7d := ((vals.take (i + 1)).drop (i - 6)).sum
        games_7d := ((cnts.take (i + 1)).drop (i - 6)).sum })

/-- The day number of `pd.Timestamp("2022-01-01")`, the cutoff of line 27. -/
def CITY_CUTOFF : Nat := 18993

/-- The whole `build_city_daily_agg` body: filter to 2022+, group by city,
and emit each city's dense daily rows tagged with the city name. -/
def build_city_daily_agg_body (rows : List (String × DailyInputRow)) :
    List (String × CityDailyRow) :=
  let rows2 := rows.filter (fun r => CITY_CUTOFF ≤ r.2.1)
  (groupAccum (fun r => r.1) rows2).flatMap (fun cg =>
    (city_daily_7d (cg.2.map (fun r => r.2))).map (fun row => (cg.1, row)))

/-! ## Calendar fields (`week_start` / `month_start`) -/

/-- Day number of a civil (Gregorian) date, days since 1970-01-01
(Howard Hinnant's `days_from_civil`; every quantity is non-negative for the
pipeline's post-2018 dates, so the division convention is immaterial). -/
def daysFromCivil (y m d : Int) : Int :=
  let y2 := if m ≤ 2 then y - 1 else y
  let era := (if 0 ≤ y2 then y2 else y2 - 399) / 400
  let yoe := y2 - era * 400
  let doy := (153 * ((m + 9) % 12) + 2) / 5 + d - 1
  let doe := yoe * 365 + yoe / 4 - yoe / 100 + doy
  era * 146097 + doe - 719468

/-- Day of week with Monday = 0 (1970-01-01 was a Thursday). -/
def weekdayMon0 (z : Int) : Int := (z + 3) % 7

/-- The `week_start` the code computes:
`date.to_period("W-MON").start_time` (`compute_team_game_results.py`
line 130).  A pandas weekly period anchored `W-MON` *ends* on Monday, so the
period containing day `z` starts on the most recent Tuesday: the code's
week column steps back to weekday 1, not to weekday 0. -/
def week_start_code (z : Int) : Int := z - ((weekdayMon0 z - 1) % 7)

/-- The Monday that starts the ISO week containing day `z` (what the spec
and the code's own comment `# Week start (Monday)` describe). -/
def iso_week_monday (z : Int) : Int := z - weekdayMon0 z

/-- The `month_start` the code computes: `date.to_period("M").start_time`
(line 132), the first day of the month of the given civil date. -/
def month_start_code (y m d : Int) : Int × Int × Int := (y, m, 1)

/-! ## Stage behaviour on missing input files (error handling) -/

/-- Model of `safe_read_csv` (`compute_team_game_results.py` lines 26-31 and
`rollups.py` lines 12-17): an absent file is read as an empty table.
The optional file is `none` when absent. -/
def safe_read_csv {α : Type} (file : Option (List α)) : List α := file.getD []

/-- The ledger stage (`compute_master` + `main`): an absent or empty
`games.csv` is returned as an *empty ledger*, which `main` still writes out;
no exception is raised.  (The required-columns `ValueError` of lines 42-48
cannot fire in this typed model, and needs a non-empty file anyway.) -/
def compute_master_stage (games_file : Option (List GameRow))
    (weights : List (String × Int)) : Except String (List LedgerRow) :=
  let games := safe_read_csv games_file
  if games = [] then Except.ok []
  else Except.ok (compute_master_rows weights games)

/-- The four tables `compute_rollups` writes. -/
structure RollupOutputs where
  team_weekly : List (AggRow (String × String × String))
  team_monthly : List (AggRow (String × String × String))
  city_weekly : List (AggRow (String × String))
  city_monthly : List (AggRow (String × String))
deriving DecidableEq, Repr

/-- The rollup stage (`rollups.py` lines 20-66): with an absent/empty master
or teams table it prints and returns — no exception, and no output files
written (`ok none`); otherwise it writes the four rollups (`ok (some _)`). -/
def compute_rollups_stage (master_file : Option (List RollupInputRow))
    (teams_file : Option (List TeamRow)) : Except String (Option RollupOutputs) :=
  let master := safe_read_csv master_file
  let teams := safe_read_csv teams_file
  if master = [] ∨ teams = [] then Except.ok none
  else Except.ok (some
    { team_weekly := team_rollup_weekly master
      team_monthly := team_rollup_monthly master
      city_weekly := city_rollup_weekly teams master
      city_monthly := city_rollup_monthly teams master })

/-- The daily-aggregation stage (`build_city_daily_agg.py` lines 13-15):
`raise FileNotFoundError` when `all_long.csv` is absent — the only stage of
the three that fails on a missing input. -/
def build_city_daily_agg_stage (all_long_file : Option (List (String × DailyInputRow))) :
    Except String (List (String × CityDailyRow)) :=
  match all_long_file with
  | none => Except.error "Missing input: all_long.csv"
  | some rows => Except.ok (build_city_daily_agg_body rows)

/-- The city group's `g.index.min()`. -/
def cityMinDate (rows : List DailyInputRow) : Nat := datesMin (rows.map Prod.fst)

/-- The city group's `g.index.max()`. -/
def cityMaxDate (rows : List DailyInputRow) : Nat := datesMax (rows.map Prod.fst)

/-- Length of the dense daily calendar `pd.date_range(min, max)`. -/
def cityDays (rows : List DailyInputRow) : Nat :=
  cityMaxDate rows + 1 - cityMinDate rows

/-- The reindexed `index_sum` series, position `j` holding day `min + j`. -/
def cityIndexSeries (rows : List DailyInputRow) : List Int :=
  (List.range (cityDays rows)).map (fun j => daily_index_sum rows (cityMinDate rows + j))

/-- The reindexed `games` series. -/
def cityGamesSeries (rows : List DailyInputRow) : List Int :=
  (List.range (cityDays rows)).map (fun j => daily_games rows (cityMinDate rows + j))

/-- The output row at position `i` of the dense calendar. -/
def cityRowAt (rows : List DailyInputRow) (i : Nat) : CityDailyRow :=
  { date := cityMinDate rows + i
    index_sum := daily_index_sum rows (cityMinDate rows + i)
    games := daily_games rows (cityMinDate rows + i)
    index_sum_7d := (((cityIndexSeries rows).take (i + 1)).drop (i - 6)).sum
    games_7d := (((cityGamesSeries rows).take (i + 1)).drop (i - 6)).sum }

/-! ## Lemmas about the ledger builder -/

theorem base_outcome_cases (h a : Option Int) (wn : Option String) (tid : String) :
    base_outcome h a wn tid = ("W", 1) ∨ base_outcome h a wn tid = ("L", -1) ∨
      base_outcome h a wn tid = ("", 0) := by
  rcases h with _ | hv <;> rcases a with _ | av <;> rcases wn with _ | wv <;>
    simp [base_outcome]
  by_cases hw : wv = tid <;> simp [hw]

theorem base_outcome_incomplete (h a : Option Int) (wn : Option String) (tid : String)
    (hx : h = none ∨ a = none ∨ wn = none) :
    base_outcome h a wn tid = ("", 0) := by
  rcases h with _ | hv <;> rcases a with _ | av <;> rcases wn with _ | wv <;>
    simp [base_outcome] <;> simp_all

theorem mem_compute_game_rows (w : List (String × Int)) (g : GameRow) (r : LedgerRow) :
    r ∈ compute_game_rows w g ↔
      r = perspective_row w g true ∨ r = perspective_row w g false := by
  simp [compute_game_rows]

theorem perspective_row_weighted (w : List (String × Int)) (g : GameRow) (b : Bool) :
    (perspective_row w g b).weighted_score =
      (perspective_row w g b).index_score *
        ((configuredWeight w (perspective_row w g b).season_type
            ((perspective_row w g b).result = "W")).natAbs : Int) := by
  have hLW : ¬ (("L" : String) = "W") := by decide
  have hEW : ¬ (("" : String) = "W") := by decide
  rcases base_outcome_cases (parseScores g.home_score g.away_score).1
      (parseScores g.home_score g.away_score).2 (parseWinner g.winning_team_id)
      (if b then g.home_team_id else g.away_team_id) with h | h | h <;>
    simp [perspective_row, outcome_weight, configuredWeight, h, hLW, hEW]

theorem incomplete_rows_zero (w : List (String × Int)) (g : GameRow)
    (hx : (parseScores g.home_score g.away_score).1 = none ∨
          (parseScores g.home_score g.away_score).2 = none ∨
          parseWinner g.winning_team_id = none) :
    ∀ r ∈ compute_game_rows w g,
      r.result = "" ∧ r.index_score = 0 ∧ r.weighted_score = 0 := by
  intro r hr
  rcases (mem_compute_game_rows _ _ _).1 hr with h | h <;> subst h <;>
  · have hb := base_outcome_incomplete (parseScores g.home_score g.away_score).1
      (parseScores g.home_score g.away_score).2 (parseWinner g.winning_team_id)
      (if (true : Bool) then g.home_team_id else g.away_team_id) hx
    simp [perspective_row, outcome_weight, base_outcome_incomplete, hx,
      base_outcome_incomplete _ _ _ _ hx]

theorem compute_master_rows_length (w : List (String × Int)) (games : List GameRow) :
    (compute_master_rows w games).length = 2 * games.length := by
  induction games with
  | nil => rfl
  | cons g gs ih =>
    have h : compute_master_rows w (g :: gs)
        = compute_game_rows w g ++ compute_master_rows w gs := rfl
    rw [h, List.length_append, ih]
    simp [compute_game_rows]
    omega

/-- C2: for every game row and weights configuration, each ledger perspective's
`weighted_score` equals its `index_score` multiplied by the absolute value of
the configured weight for its `(season_type, win-or-loss)` combination, where
the weights come from the external scoring configuration keyed by
`regular_season_win` / `regular_season_loss` / `playoff_win` / `playoff_loss`
and default to `{+1, -1, +3, -3}` when no configuration file is supplied. -/
theorem C2_weighted_score (cfg : Option (List (String × Int))) (g : GameRow)
    (r : LedgerRow) (hr : r ∈ compute_game_rows (load_scoring_weights cfg) g) :
    r.weighted_score = r.index_score *
      ((configuredWeight (load_scoring_weights cfg) r.season_type
          (r.result = "W")).natAbs : Int)
    ∧ load_scoring_weights none = defaultScoringWeights
    ∧ configuredWeight (load_scoring_weights none) "regular" true = 1
    ∧ configuredWeight (load_scoring_weights none) "regular" false = -1
    ∧ configuredWeight (load_scoring_weights none) "playoff" true = 3
    ∧ configuredWeight (load_scoring_weights none) "playoff" false = -3 := by
  refine ⟨?_, rfl, by decide, by decide, by decide, by decide⟩
  rcases (mem_compute_game_rows _ _ _).1 hr with h | h <;> subst h <;>
    exact perspective_row_weighted _ _ _

/-- Witness for C2: concrete instantiation at `sampleGame` with no
configuration file. -/
theorem C2_weighted_score_witness :
    (perspective_row (load_scoring_weights none) sampleGame true).weighted_score =
      (perspective_row (load_scoring_weights none) sampleGame true).index_score *
        ((configuredWeight (load_scoring_weights none)
            (perspective_row (load_scoring_weights none) sampleGame true).season_type
            ((perspective_row (load_scoring_weights none) sampleGame true).result
              = "W")).natAbs : Int) :=
  (C2_weighted_score none sampleGame _ (by simp [compute_game_rows])).1

/-- C7: a game row with a missing score or no determinable winner gets result
`""`, `index_score 0` and `weighted_score 0` on both perspectives, and the game
still produces its two ledger rows (every game contributes exactly two rows to
the master ledger), so it remains countable as played. -/
theorem C7_incomplete_game_neutral (w : List (String × Int)) (g : GameRow)
    (hx : (parseScores g.home_score g.away_score).1 = none ∨
          (parseScores g.home_score g.away_score).2 = none ∨
          parseWinner g.winning_team_id = none) :
    (compute_game_rows w g).length = 2 ∧
    (∀ r ∈ compute_game_rows w g,
      r.result = "" ∧ r.index_score = 0 ∧ r.weighted_score = 0) ∧
    (∀ games : List GameRow,
      (compute_master_rows w games).length = 2 * games.length) :=
  ⟨rfl, incomplete_rows_zero w g hx, compute_master_rows_length w⟩

/-- Witness for C7: the blank-scores game `sampleIncompleteGame`. -/
theorem C7_incomplete_game_neutral_witness :
    (compute_game_rows defaultScoringWeights sampleIncompleteGame).length = 2 ∧
    (∀ r ∈ compute_game_rows defaultScoringWeights sampleIncompleteGame,
      r.result = "" ∧ r.index_score = 0 ∧ r.weighted_score = 0) ∧
    (∀ games : List GameRow,
      (compute_master_rows defaultScoringWeights games).length = 2 * games.length) :=
  C7_incomplete_game_neutral defaultScoringWeights sampleIncompleteGame
    (Or.inl (by decide))

/-- C10: every canonical game row emitted by the NBA historical loader has
empty-string scores even when a winner is recorded, so the ledger computation
classifies it as incomplete and assigns result `""`, `index_score 0` and
`weighted_score 0` to both perspectives. -/
theorem C10_nba_rows_never_score (abbrevMap : List (String × String))
    (gid gdate home_abbrev away_abbrev winner_abbrev : String)
    (w : List (String × Int)) :
    (nba_game_row abbrevMap gid gdate home_abbrev away_abbrev winner_abbrev).home_score = ""
    ∧ (nba_game_row abbrevMap gid gdate home_abbrev away_abbrev winner_abbrev).away_score = ""
    ∧ ∀ r ∈ compute_game_rows w
        (nba_game_row abbrevMap gid gdate home_abbrev away_abbrev winner_abbrev),
        r.result = "" ∧ r.index_score = 0 ∧ r.weighted_score = 0 := by
  refine ⟨rfl, rfl, ?_⟩
  exact incomplete_rows_zero w _ (Or.inl rfl)

/-- Witness for C10: a concrete NBA game with a recorded winner still yields
two neutral ledger rows. -/
theorem C10_nba_rows_never_score_witness :
    (nba_game_row [("GSW", "nba_GSW")] "0021800001" "2018-10-16" "GSW" "POR" "GSW").home_score = ""
    ∧ (nba_game_row [("GSW", "nba_GSW")] "0021800001" "2018-10-16" "GSW" "POR" "GSW").away_score = ""
    ∧ (perspective_row defaultScoringWeights
        (nba_game_row [("GSW", "nba_GSW")] "0021800001" "2018-10-16" "GSW" "POR" "GSW")
        true).result = "" :=
  ⟨(C10_nba_rows_never_score _ _ _ _ _ _ defaultScoringWeights).1,
   (C10_nba_rows_never_score _ _ _ _ _ _ defaultScoringWeights).2.1,
   ((C10_nba_rows_never_score [("GSW", "nba_GSW")] "0021800001" "2018-10-16"
      "GSW" "POR" "GSW" defaultScoringWeights).2.2 _
      (by simp [compute_game_rows])).1⟩

/-- C3 counterexample: `strayWinnerGame` has both scores present and a
non-empty `winning_team_id` ("C"), yet the recorded winner is neither
participant, so both ledger rows come out "L" with index and weighted score
`-1` — not one "W" and one "L" with opposite signs as the claim states. -/
theorem C3_counterexample :
    parseScores strayWinnerGame.home_score strayWinnerGame.away_score = (some 2, some 1)
    ∧ parseWinner strayWinnerGame.winning_team_id = some "C"
    ∧ (compute_game_rows defaultScoringWeights strayWinnerGame).map LedgerRow.result
        = ["L", "L"]
    ∧ (compute_game_rows defaultScoringWeights strayWinnerGame).map LedgerRow.index_score
        = [-1, -1]
    ∧ (compute_game_rows defaultScoringWeights strayWinnerGame).map LedgerRow.weighted_score
        = [-1, -1] := by
  decide

/-- C3 (amended): for every game with both scores present and a non-empty
`winning_team_id` that equals exactly one of the two participating team ids,
the ledger builder emits exactly two rows with opposite results (one "W", one
"L"), opposite-signed unit index scores, and, under a weight configuration
that is magnitude-symmetric for the game's season type, opposite-signed
weighted scores of equal magnitude. -/
theorem C3_decisive_opposite_rows (w : List (String × Int)) (g : GameRow) (wid : String)
    (hh : (parseScores g.home_score g.away_score).1 ≠ none)
    (ha : (parseScores g.home_score g.away_score).2 ≠ none)
    (hw : parseWinner g.winning_team_id = some wid)
    (hx : (wid = g.home_team_id ∧ wid ≠ g.away_team_id) ∨
          (wid = g.away_team_id ∧ wid ≠ g.home_team_id)) :
    compute_game_rows w g = [perspective_row w g true, perspective_row w g false]
    ∧ (((perspective_row w g true).result = "W"
          ∧ (perspective_row w g false).result = "L") ∨
       ((perspective_row w g true).result = "L"
          ∧ (perspective_row w g false).result = "W"))
    ∧ (perspective_row w g true).index_score = -(perspective_row w g false).index_score
    ∧ (perspective_row w g true).index_score.natAbs = 1
    ∧ ((configuredWeight w (pyLower g.season_type) true).natAbs
          = (configuredWeight w (pyLower g.season_type) false).natAbs →
        (perspective_row w g true).weighted_score
          = -(perspective_row w g false).weighted_score) := by
  rcases Option.ne_none_iff_exists'.1 hh with ⟨sh, hsh⟩
  rcases Option.ne_none_iff_exists'.1 ha with ⟨sa, hsa⟩
  refine ⟨rfl, ?_⟩
  rcases hx with ⟨h1, h2⟩ | ⟨h1, h2⟩
  · have hbt : base_outcome (parseScores g.home_score g.away_score).1
        (parseScores g.home_score g.away_score).2 (parseWinner g.winning_team_id)
        g.home_team_id = ("W", 1) := by
      rw [hsh, hsa, hw]; simp [base_outcome, h1]
    have hbf : base_outcome (parseScores g.home_score g.away_score).1
        (parseScores g.home_score g.away_score).2 (parseWinner g.winning_team_id)
        g.away_team_id = ("L", -1) := by
      rw [hsh, hsa, hw]; simp [base_outcome, h2]
    refine ⟨Or.inl ⟨by simp [perspective_row, hbt], by simp [perspective_row, hbf]⟩,
      by simp [perspective_row, hbt, hbf], by simp [perspective_row, hbt], ?_⟩
    intro hsym
    have e1 : (perspective_row w g true).weighted_score
        = ((configuredWeight w (pyLower g.season_type) true).natAbs : Int) := by
      simp [perspective_row, hbt, outcome_weight, configuredWeight]
    have e2 : (perspective_row w g false).weighted_score
        = -((configuredWeight w (pyLower g.season_type) false).natAbs : Int) := by
      simp [perspective_row, hbf, outcome_weight, configuredWeight]
    rw [e1, e2, neg_neg, hsym]
  · have hbt : base_outcome (parseScores g.home_score g.away_score).1
        (parseScores g.home_score g.away_score).2 (parseWinner g.winning_team_id)
        g.home_team_id = ("L", -1) := by
      rw [hsh, hsa, hw]; simp [base_outcome, h2]
    have hbf : base_outcome (parseScores g.home_score g.away_score).1
        (parseScores g.home_score g.away_score).2 (parseWinner g.winning_team_id)
        g.away_team_id = ("W", 1) := by
      rw [hsh, hsa, hw]; simp [base_outcome, h1]
    refine ⟨Or.inr ⟨by simp [perspective_row, hbt], by simp [perspective_row, hbf]⟩,
      by simp [perspective_row, hbt, hbf], by simp [perspective_row, hbt], ?_⟩
    intro hsym
    have e1 : (perspective_row w g true).weighted_score
        = -((configuredWeight w (pyLower g.season_type) false).natAbs : Int) := by
      simp [perspective_row, hbt, outcome_weight, configuredWeight]
    have e2 : (perspective_row w g false).weighted_score
        = ((configuredWeight w (pyLower g.season_type) true).natAbs : Int) := by
      simp [perspective_row, hbf, outcome_weight, configuredWeight]
    rw [e1, e2, hsym]

/-- Witness for the amended C3 at the concrete game `sampleGame` (away side,
Vegas, wins 4-2 at Toronto). -/
theorem C3_decisive_opposite_rows_witness :
    compute_game_rows defaultScoringWeights sampleGame
        = [perspective_row defaultScoringWeights sampleGame true,
           perspective_row defaultScoringWeights sampleGame false]
    ∧ (((perspective_row defaultScoringWeights sampleGame true).result = "W"
          ∧ (perspective_row defaultScoringWeights sampleGame false).result = "L") ∨
       ((perspective_row defaultScoringWeights sampleGame true).result = "L"
          ∧ (perspective_row defaultScoringWeights sampleGame false).result = "W"))
    ∧ (perspective_row defaultScoringWeights sampleGame true).index_score
        = -(perspective_row defaultScoringWeights sampleGame false).index_score
    ∧ (perspective_row defaultScoringWeights sampleGame true).index_score.natAbs = 1
    ∧ ((configuredWeight defaultScoringWeights (pyLower sampleGame.season_type) true).natAbs
          = (configuredWeight defaultScoringWeights
              (pyLower sampleGame.season_type) false).natAbs →
        (perspective_row defaultScoringWeights sampleGame true).weighted_score
          = -(perspective_row defaultScoringWeights sampleGame false).weighted_score) :=
  C3_decisive_opposite_rows defaultScoringWeights sampleGame
    "nhl_vegas-golden-knights" (by decide) (by decide) (by decide)
    (Or.inr ⟨rfl, by decide⟩)

/-! ## Lemmas about the keyed conditional append (loader merging) -/

section KeyedAppend

variable {α β : Type} (key : α → String) (mk : α → β) (guard : α → Prop)
variable [DecidablePred guard]

theorem keyed_append_ids_mono (l : List α) (acc : List β × List String) (k : String)
    (hk : k ∈ acc.2) : k ∈ (l.foldl (keyed_append key mk guard) acc).2 := by
  induction l generalizing acc with
  | nil => exact hk
  | cons x xs ih =>
    apply ih
    unfold keyed_append
    split
    · exact List.mem_append_left _ hk
    · exact hk

theorem keyed_append_ids_covered (l : List α) (acc : List β × List String) (x : α)
    (hx : x ∈ l) (hg : guard x) :
    key x ∈ (l.foldl (keyed_append key mk guard) acc).2 := by
  induction l generalizing acc with
  | nil => cases hx
  | cons y ys ih =>
    rcases List.mem_cons.1 hx with h | h
    · subst h
      rw [List.foldl_cons]
      apply keyed_append_ids_mono
      unfold keyed_append
      split
      · exact List.mem_append_right _ (List.mem_singleton.2 rfl)
      · rename_i hcond
        rw [not_and_or, not_not] at hcond
        rcases hcond with hcond | hcond
        · exact absurd hg hcond
        · exact hcond
    · exact ih _ h

theorem keyed_append_noop (l : List α) (acc : List β × List String)
    (h : ∀ x ∈ l, guard x → key x ∈ acc.2) :
    l.foldl (keyed_append key mk guard) acc = acc := by
  induction l with
  | nil => rfl
  | cons x xs ih =>
    have hstep : keyed_append key mk guard acc x = acc := by
      unfold keyed_append
      rw [if_neg]
      rw [not_and_or, not_not]
      by_cases hg : guard x
      · exact Or.inr (h x (List.mem_cons_self _ _) hg)
      · exact Or.inl hg
    show (xs.foldl (keyed_append key mk guard) (keyed_append key mk guard acc x)) = acc
    rw [hstep]
    exact ih (fun x hx hg => h x (List.mem_cons_of_mem _ hx) hg)

theorem keyed_append_eq (acc : List β × List String) (x : α) :
    keyed_append key mk guard acc x =
      if guard x ∧ key x ∉ acc.2 then (acc.1 ++ [mk x], acc.2 ++ [key x]) else acc := rfl

theorem keyed_append_ids_sub {keyβ : β → String} (hmk : ∀ x, keyβ (mk x) = key x)
    (l : List α) (acc : List β × List String) (S : List String)
    (hbase : ∀ k ∈ acc.2, k ∈ S ∨ k ∈ acc.1.map keyβ) :
    ∀ k ∈ (l.foldl (keyed_append key mk guard) acc).2,
      k ∈ S ∨ k ∈ ((l.foldl (keyed_append key mk guard) acc).1).map keyβ := by
  induction l generalizing acc with
  | nil => exact hbase
  | cons x xs ih =>
    apply ih
    intro k hk
    by_cases hcond : guard x ∧ key x ∉ acc.2
    · rw [keyed_append_eq, if_pos hcond] at hk ⊢
      rcases List.mem_append.1 hk with h | h
      · rcases hbase k h with h' | h'
        · exact Or.inl h'
        · refine Or.inr ?_
          rw [List.map_append]
          exact List.mem_append_left _ h'
      · refine Or.inr ?_
        have hkx : k = key x := List.mem_singleton.1 h
        rw [List.map_append]
        refine List.mem_append_right _ ?_
        simp [hkx, hmk x]
    · rw [keyed_append_eq, if_neg hcond] at hk ⊢
      exact hbase k hk

/-- A second pass of the keyed conditional append, seeded with the original
ids plus the ids of the rows the first pass produced, produces nothing. -/
theorem keyed_append_second_pass {keyβ : β → String} (hmk : ∀ x, keyβ (mk x) = key x)
    (l : List α) (ids0 : List String) :
    (l.foldl (keyed_append key mk guard)
      ([], ids0 ++ ((l.foldl (keyed_append key mk guard) ([], ids0)).1).map keyβ)).1
      = [] := by
  rw [keyed_append_noop]
  intro x hx hg
  have h2 := keyed_append_ids_covered key mk guard l ([], ids0) x hx hg
  have h3 := keyed_append_ids_sub key mk guard hmk l ([], ids0) ids0
    (fun k hk => Or.inl hk) (key x) h2
  exact List.mem_append.2 h3

end KeyedAppend

/-! ## Lemmas about keep-first dedup -/

section Dedup

variable {α : Type} (key : α → String)

theorem dedupAux_nil_of_seen (M : List α) (seen : List String)
    (h : ∀ x ∈ M, key x ∈ seen) : dedupAux key seen M = [] := by
  induction M with
  | nil => rfl
  | cons x xs ih =>
    rw [dedupAux, if_pos (h x (List.mem_cons_self _ _))]
    exact ih (fun y hy => h y (List.mem_cons_of_mem _ hy))

theorem dedupAux_append_subsumed (L M : List α) (seen : List String)
    (h : ∀ x ∈ M, key x ∈ seen ∨ key x ∈ L.map key) :
    dedupAux key seen (L ++ M) = dedupAux key seen L := by
  induction L generalizing seen with
  | nil =>
    rw [List.nil_append]
    exact dedupAux_nil_of_seen key M seen (fun x hx => by
      rcases h x hx with h' | h'
      · exact h'
      · rw [List.map_nil] at h'
        exact absurd h' (List.not_mem_nil _))
  | cons y L' ih =>
    rw [List.cons_append, dedupAux, dedupAux]
    by_cases hy : key y ∈ seen
    · rw [if_pos hy, if_pos hy]
      exact ih seen (fun x hx => by
        rcases h x hx with h' | h'
        · exact Or.inl h'
        · rw [List.map_cons] at h'
          rcases List.mem_cons.1 h' with h'' | h''
          · exact Or.inl (h'' ▸ hy)
          · exact Or.inr h'')
    · rw [if_neg hy, if_neg hy]
      congr 1
      exact ih (key y :: seen) (fun x hx => by
        rcases h x hx with h' | h'
        · exact Or.inl (List.mem_cons_of_mem _ h')
        · rw [List.map_cons] at h'
          rcases List.mem_cons.1 h' with h'' | h''
          · exact Or.inl (h'' ▸ List.mem_cons_self _ _)
          · exact Or.inr h'')

theorem dedupAux_eq_self (N : List α) (seen : List String)
    (h1 : (N.map key).Nodup) (h2 : ∀ x ∈ N, key x ∉ seen) :
    dedupAux key seen N = N := by
  induction N generalizing seen with
  | nil => rfl
  | cons x xs ih =>
    rw [List.map_cons, List.nodup_cons] at h1
    rw [dedupAux, if_neg (h2 x (List.mem_cons_self _ _))]
    congr 1
    refine ih (key x :: seen) h1.2 ?_
    intro y hy
    rw [List.mem_cons, not_or]
    refine ⟨?_, h2 y (List.mem_cons_of_mem _ hy)⟩
    intro hxy
    exact h1.1 (hxy ▸ List.mem_map_of_mem key hy)

theorem mem_keys_dedupAux (L : List α) (seen : List String) (k : String)
    (hk : k ∈ L.map key) :
    k ∈ seen ∨ k ∈ (dedupAux key seen L).map key := by
  induction L generalizing seen with
  | nil => exact absurd (List.map_nil ▸ hk) (List.not_mem_nil _)
  | cons x xs ih =>
    rw [List.map_cons] at hk
    rcases List.mem_cons.1 hk with h | h
    · by_cases hx : key x ∈ seen
      · exact Or.inl (h ▸ hx)
      · rw [dedupAux, if_neg hx, List.map_cons]
        exact Or.inr (h ▸ List.mem_cons_self _ _)
    · by_cases hx : key x ∈ seen
      · rw [dedupAux, if_pos hx]
        exact ih seen h
      · rw [dedupAux, if_neg hx, List.map_cons]
        rcases ih (key x :: seen) h with h' | h'
        · rcases List.mem_cons.1 h' with h'' | h''
          · exact Or.inr (h'' ▸ List.mem_cons_self _ _)
          · exact Or.inl h''
        · exact Or.inr (List.mem_cons_of_mem _ h')

theorem dedupAux_keys_fresh (L : List α) (seen : List String) :
    ((dedupAux key seen L).map key).Nodup ∧
      ∀ k ∈ (dedupAux key seen L).map key, k ∉ seen := by
  induction L generalizing seen with
  | nil =>
    refine ⟨List.nodup_nil, ?_⟩
    intro k hk
    exact absurd (List.map_nil ▸ hk) (List.not_mem_nil _)
  | cons x xs ih =>
    by_cases hx : key x ∈ seen
    · rw [dedupAux, if_pos hx]
      exact ih seen
    · rw [dedupAux, if_neg hx, List.map_cons]
      obtain ⟨ihn, ihf⟩ := ih (key x :: seen)
      refine ⟨List.nodup_cons.2 ⟨?_, ihn⟩, ?_⟩
      · intro hmem
        exact (ihf _ hmem) (List.mem_cons_self _ _)
      · intro k hk
        rcases List.mem_cons.1 hk with h | h
        · exact h ▸ hx
        · intro hks
          exact (ihf k h) (List.mem_cons_of_mem _ hks)

theorem dedupAux_idem (X : List α) :
    dedupAux key [] (dedupAux key [] X) = dedupAux key [] X :=
  dedupAux_eq_self key _ [] (dedupAux_keys_fresh key X []).1
    (fun x _ => List.not_mem_nil _)

theorem dedupAux_ne_nil (x : α) (xs : List α) :
    dedupAux key [] (x :: xs) ≠ [] := by
  rw [dedupAux, if_neg (List.not_mem_nil _)]
  exact List.cons_ne_nil _ _

end Dedup

/-! ## Idempotence of the NHL loader -/

theorem tables_eq_of_fields {a b : PipelineTables} (hc : a.cities = b.cities)
    (ht : a.teams = b.teams) (hg : a.games = b.games) : a = b := by
  cases a; cases b; simp_all

theorem map_if_append {γ δ : Type} [DecidableEq γ] (f : γ → δ) (base new : List γ) :
    ((if new = [] then base else base ++ new).map f) = base.map f ++ new.map f := by
  split
  · rename_i h
    rw [h, List.map_nil, List.append_nil]
  · rw [List.map_append]

theorem load_nhl_eq (raw : List NHLRawRow) (t : PipelineTables) (hraw : raw ≠ []) :
    load_nhl raw t =
      { cities :=
          if process_cities (nhl_city_candidates raw)
              (t.cities.map (fun c => c.city_id)) = []
          then t.cities
          else t.cities ++ process_cities (nhl_city_candidates raw)
              (t.cities.map (fun c => c.city_id))
        teams :=
          if process_teams (nhl_team_candidates raw)
              (t.teams.map (fun tm => tm.team_id)) = []
          then t.teams
          else t.teams ++ process_teams (nhl_team_candidates raw)
              (t.teams.map (fun tm => tm.team_id))
        games := merge_games t.games (raw.map nhl_game_of) } := by
  unfold load_nhl
  rw [if_neg hraw]

theorem load_nhl_cities (raw : List NHLRawRow) (t : PipelineTables) (hraw : raw ≠ []) :
    (load_nhl raw t).cities =
      if process_cities (nhl_city_candidates raw)
          (t.cities.map (fun c => c.city_id)) = []
      then t.cities
      else t.cities ++ process_cities (nhl_city_candidates raw)
          (t.cities.map (fun c => c.city_id)) := by
  rw [load_nhl_eq raw t hraw]

theorem load_nhl_teams (raw : List NHLRawRow) (t : PipelineTables) (hraw : raw ≠ []) :
    (load_nhl raw t).teams =
      if process_teams (nhl_team_candidates raw)
          (t.teams.map (fun tm => tm.team_id)) = []
      then t.teams
      else t.teams ++ process_teams (nhl_team_candidates raw)
          (t.teams.map (fun tm => tm.team_id)) := by
  rw [load_nhl_eq raw t hraw]

theorem load_nhl_games (raw : List NHLRawRow) (t : PipelineTables) (hraw : raw ≠ []) :
    (load_nhl raw t).games = merge_games t.games (raw.map nhl_game_of) := by
  rw [load_nhl_eq raw t hraw]

theorem process_cities_second_pass (cands : List String) (ids0 : List String) :
    process_cities cands
      (ids0 ++ (process_cities cands ids0).map (fun c => c.city_id)) = [] :=
  @keyed_append_second_pass String CityRow slugify city_row_of (fun c => c ≠ "") _
    (fun c => c.city_id) (fun _ => rfl) cands ids0

theorem process_teams_second_pass (cands : List String) (ids0 : List String) :
    process_teams cands
      (ids0 ++ (process_teams cands ids0).map (fun tm => tm.team_id)) = [] :=
  @keyed_append_second_pass String TeamRow (fun full => "nhl_" ++ slugify full)
    team_row_of_nhl (fun _ => True) _
    (fun tm => tm.team_id) (fun _ => rfl) cands ids0

theorem merge_games_second_pass (g0 N : List GameRow)
    (hN : (N.map (fun g => g.game_id)).Nodup) :
    merge_games (merge_games g0 N) N = merge_games g0 N := by
  by_cases hN0 : N = []
  · rw [hN0]
    rfl
  · by_cases hg0 : g0 = []
    · have hInner : merge_games g0 N = N := by
        rw [merge_games, if_neg hN0, if_pos hg0]
      rw [hInner, merge_games, if_neg hN0, if_neg hN0]
      rw [drop_duplicates_games,
        dedupAux_append_subsumed _ N N []
          (fun x hx => Or.inr (List.mem_map_of_mem _ hx))]
      exact dedupAux_eq_self _ N [] hN (fun x _ => List.not_mem_nil _)
    · have hInner : merge_games g0 N = drop_duplicates_games (g0 ++ N) := by
        rw [merge_games, if_neg hN0, if_neg hg0]
      have hD : drop_duplicates_games (g0 ++ N) ≠ [] := by
        obtain ⟨x, xs, hx⟩ := List.exists_cons_of_ne_nil hg0
        rw [hx, drop_duplicates_games, List.cons_append]
        exact dedupAux_ne_nil _ _ _
      rw [hInner, merge_games, if_neg hN0, if_neg hD]
      have hsub : ∀ x ∈ N, x.game_id ∈ ([] : List String) ∨
          x.game_id ∈ (drop_duplicates_games (g0 ++ N)).map (fun g => g.game_id) := by
        intro x hx
        have h1 : x.game_id ∈ (g0 ++ N).map (fun g => g.game_id) :=
          List.mem_map_of_mem _ (List.mem_append_right _ hx)
        rcases mem_keys_dedupAux (fun g => g.game_id) (g0 ++ N) [] _ h1 with h | h
        · exact absurd h (List.not_mem_nil _)
        · exact Or.inr h
      rw [drop_duplicates_games,
        dedupAux_append_subsumed _ (drop_duplicates_games (g0 ++ N)) N [] hsub]
      exact dedupAux_idem _ _

/-- C1 counterexample: two raw NHL rows for the same fixture (identical
derived `game_id`, different goals) over initially empty canonical tables.
The first run keeps both rows (the empty-table branch skips the dedup), the
second run dedups them down to one, so the persisted games table differs
between the first and second run. -/
theorem C1_counterexample :
    (load_nhl [nhlRawVegasToronto, nhlRawVegasTorontoDup] emptyTables).games.length = 2
    ∧ (load_nhl [nhlRawVegasToronto, nhlRawVegasTorontoDup]
        (load_nhl [nhlRawVegasToronto, nhlRawVegasTorontoDup] emptyTables)).games.length = 1
    ∧ load_nhl [nhlRawVegasToronto, nhlRawVegasTorontoDup]
        (load_nhl [nhlRawVegasToronto, nhlRawVegasTorontoDup] emptyTables)
      ≠ load_nhl [nhlRawVegasToronto, nhlRawVegasTorontoDup] emptyTables := by
  have h1 : (load_nhl [nhlRawVegasToronto, nhlRawVegasTorontoDup]
      emptyTables).games.length = 2 := by decide
  have h2 : (load_nhl [nhlRawVegasToronto, nhlRawVegasTorontoDup]
      (load_nhl [nhlRawVegasToronto, nhlRawVegasTorontoDup]
        emptyTables)).games.length = 1 := by decide
  refine ⟨h1, h2, fun h => ?_⟩
  rw [h, h1] at h2
  exact absurd h2 (by decide)

/-- C1 (amended): when the raw NHL input yields pairwise-distinct derived
`game_id`s, a second run of the loader over the same raw input leaves all
three persisted canonical tables exactly as the first run left them;
city/team rows are appended only for unseen ids, and game rows already
present by `game_id` are discarded keep-first. -/
theorem C1_load_nhl_idempotent (raw : List NHLRawRow) (t : PipelineTables)
    (hids : ((raw.map nhl_game_of).map (fun g => g.game_id)).Nodup) :
    load_nhl raw (load_nhl raw t) = load_nhl raw t := by
  by_cases hraw : raw = []
  · rw [hraw]
    rfl
  · apply tables_eq_of_fields
    · rw [load_nhl_cities raw (load_nhl raw t) hraw, load_nhl_cities raw t hraw]
      have h2 : process_cities (nhl_city_candidates raw)
          ((if process_cities (nhl_city_candidates raw)
                (t.cities.map (fun c => c.city_id)) = []
            then t.cities
            else t.cities ++ process_cities (nhl_city_candidates raw)
                (t.cities.map (fun c => c.city_id))).map (fun c => c.city_id)) = [] := by
        rw [map_if_append]
        exact process_cities_second_pass _ _
      rw [h2]
      simp
    · rw [load_nhl_teams raw (load_nhl raw t) hraw, load_nhl_teams raw t hraw]
      have h2 : process_teams (nhl_team_candidates raw)
          ((if process_teams (nhl_team_candidates raw)
                (t.teams.map (fun tm => tm.team_id)) = []
            then t.teams
            else t.teams ++ process_teams (nhl_team_candidates raw)
                (t.teams.map (fun tm => tm.team_id))).map (fun tm => tm.team_id)) = [] := by
        rw [map_if_append]
        exact process_teams_second_pass _ _
      rw [h2]
      simp
    · rw [load_nhl_games raw (load_nhl raw t) hraw, load_nhl_games raw t hraw]
      exact merge_games_second_pass t.games (raw.map nhl_game_of) hids

/-- Witness for the amended C1: one concrete raw row over empty tables. -/
theorem C1_load_nhl_idempotent_witness :
    load_nhl [nhlRawVegasToronto] (load_nhl [nhlRawVegasToronto] emptyTables)
      = load_nhl [nhlRawVegasToronto] emptyTables :=
  C1_load_nhl_idempotent [nhlRawVegasToronto] emptyTables (by decide)

/-! ## The week-start bug -/

/-- C5: the code derives `week_start` with `to_period("W-MON")`, whose weekly
periods *end* on Monday, so the computed week start is the most recent
Tuesday — never the ISO Monday the spec (and the code's own comment
`# Week start (Monday)`) describe.  Concretely, for 2023-03-01 (a Wednesday)
the code yields 2023-02-28 (Tuesday) while the Monday-anchored ISO week
starts 2023-02-27; and the two derivations disagree on every date.
`month_start` (first of month) is as specified. -/
theorem C5_week_start_is_tuesday :
    week_start_code (daysFromCivil 2023 3 1) = daysFromCivil 2023 2 28
    ∧ iso_week_monday (daysFromCivil 2023 3 1) = daysFromCivil 2023 2 27
    ∧ daysFromCivil 2023 2 28 ≠ daysFromCivil 2023 2 27
    ∧ (∀ z : Int, week_start_code z ≠ iso_week_monday z)
    ∧ (∀ y m d : Int, month_start_code y m d = (y, m, 1)) := by
  refine ⟨by decide, by decide, by decide, ?_, fun y m d => rfl⟩
  intro z
  unfold week_start_code iso_week_monday weekdayMon0
  omega

/-! ## Stage behaviour on missing inputs -/

/-- C8 counterexample: with `games.csv` absent the ledger stage does *not*
fail — `safe_read_csv` degrades the missing file to an empty table and the
stage succeeds, writing an empty ledger; likewise the rollup stage returns
successfully (writing nothing) when its inputs are absent. -/
theorem C8_counterexample :
    compute_master_stage none defaultScoringWeights = Except.ok []
    ∧ compute_rollups_stage none none = Except.ok none
    ∧ compute_rollups_stage none (some [team_row_of_nhl "Vegas Golden Knights"])
        = Except.ok none := by
  exact ⟨rfl, rfl, rfl⟩

/-- C8 (amended): of the three stages, only the daily 7-day aggregation
fails (raises) when its required input file is absent; the ledger stage
instead succeeds with an empty output table, and the rollup stage succeeds
writing no output at all. -/
theorem C8_only_daily_agg_fails (weights : List (String × Int))
    (mf : Option (List RollupInputRow)) (tf : Option (List TeamRow))
    (rows : List (String × DailyInputRow)) :
    compute_master_stage none weights = Except.ok []
    ∧ compute_rollups_stage none tf = Except.ok none
    ∧ compute_rollups_stage mf none = Except.ok none
    ∧ build_city_daily_agg_stage none = Except.error "Missing input: all_long.csv"
    ∧ build_city_daily_agg_stage (some rows)
        = Except.ok (build_city_daily_agg_body rows) := by
  refine ⟨rfl, ?_, ?_, rfl, rfl⟩
  · rw [compute_rollups_stage]
    have h : safe_read_csv (none : Option (List RollupInputRow)) = [] := rfl
    rw [if_pos (Or.inl h)]
  · rw [compute_rollups_stage]
    have h : safe_read_csv (none : Option (List TeamRow)) = [] := rfl
    rw [if_pos (Or.inr h)]

/-! ## Lemmas about grouped aggregation -/

section GroupBy

variable {κ α : Type} [DecidableEq κ] (key : α → κ)

theorem groupOf_cons (e : κ × List α) (rest : List (κ × List α)) (k : κ) :
    groupOf (e :: rest) k = if e.1 = k then e.2 else groupOf rest k := by
  by_cases h : e.1 = k
  · rw [groupOf, List.find?_cons_of_pos _ (by simp [h]), if_pos h]
  · rw [groupOf, List.find?_cons_of_neg _ (by simp [h]), if_neg h]
    rfl

theorem groupOf_insertGroup (acc : List (κ × List α)) (k' : κ) (r : α) (k : κ) :
    groupOf (insertGroup acc k' r) k
      = groupOf acc k ++ (if k' = k then [r] else []) := by
  induction acc with
  | nil =>
    rw [insertGroup, groupOf_cons]
    by_cases h : k' = k
    · rw [if_pos h, if_pos h]
      rfl
    · rw [if_neg h, if_neg h]
      rfl
  | cons e rest ih =>
    rw [insertGroup]
    by_cases he : e.1 = k'
    · rw [if_pos he, groupOf_cons, groupOf_cons]
      by_cases hk : e.1 = k
      · rw [if_pos hk, if_pos hk, if_pos (he.symm.trans hk)]
      · rw [if_neg hk, if_neg hk, if_neg (fun hh => hk (he.trans hh)), List.append_nil]
    · rw [if_neg he, groupOf_cons, groupOf_cons]
      by_cases hk : e.1 = k
      · rw [if_pos hk, if_pos hk, if_neg (fun hh => he (hk.trans hh.symm)), List.append_nil]
      · rw [if_neg hk, if_neg hk, ih]

theorem groupOf_groupAccum_aux (rows : List α) (acc : List (κ × List α)) (k : κ) :
    groupOf (rows.foldl (fun a r => insertGroup a (key r) r) acc) k
      = groupOf acc k ++ rows.filter (fun r => key r = k) := by
  induction rows generalizing acc with
  | nil => rw [List.foldl_nil, List.filter_nil, List.append_nil]
  | cons r rs ih =>
    rw [List.foldl_cons, ih, groupOf_insertGroup, List.filter_cons, List.append_assoc]
    by_cases h : key r = k
    · simp [h]
    · simp [h]

theorem groupOf_groupAccum (rows : List α) (k : κ) :
    groupOf (groupAccum key rows) k = rows.filter (fun r => key r = k) := by
  rw [groupAccum, groupOf_groupAccum_aux]
  rfl

theorem keys_insertGroup (acc : List (κ × List α)) (k : κ) (r : α) :
    (insertGroup acc k r).map Prod.fst =
      if k ∈ acc.map Prod.fst then acc.map Prod.fst else acc.map Prod.fst ++ [k] := by
  induction acc with
  | nil =>
    rw [insertGroup, List.map_nil]
    rw [if_neg (List.not_mem_nil k), List.nil_append, List.map_cons, List.map_nil]
  | cons e rest ih =>
    rw [insertGroup]
    by_cases he : e.1 = k
    · rw [if_pos he, List.map_cons, List.map_cons]
      rw [if_pos (List.mem_cons.2 (Or.inl he.symm))]
    · rw [if_neg he, List.map_cons, List.map_cons, ih]
      by_cases hk : k ∈ rest.map Prod.fst
      · rw [if_pos hk, if_pos (List.mem_cons_of_mem _ hk)]
      · rw [if_neg hk, if_neg (by
          intro hh
          rcases List.mem_cons.1 hh with h | h
          · exact he h.symm
          · exact hk h), List.cons_append]

theorem keys_groupAccum_nodup (rows : List α) :
    ((groupAccum key rows).map Prod.fst).Nodup := by
  suffices h : ∀ acc : List (κ × List α), (acc.map Prod.fst).Nodup →
      ((rows.foldl (fun a r => insertGroup a (key r) r) acc).map Prod.fst).Nodup by
    exact h [] List.nodup_nil
  induction rows with
  | nil => exact fun acc hacc => hacc
  | cons r rs ih =>
    intro acc hacc
    rw [List.foldl_cons]
    refine ih _ ?_
    rw [keys_insertGroup]
    by_cases hk : key r ∈ acc.map Prod.fst
    · rw [if_pos hk]
      exact hacc
    · rw [if_neg hk]
      simp [List.nodup_append, hacc, hk]

theorem mem_keys_of_groupOf_ne_nil (acc : List (κ × List α)) (k : κ)
    (h : groupOf acc k ≠ []) : k ∈ acc.map Prod.fst := by
  rw [groupOf] at h
  cases hf : acc.find? (fun e => e.1 = k) with
  | none => rw [hf] at h; exact absurd rfl h
  | some e =>
    have h1 : e.1 = k := by simpa using List.find?_some hf
    exact h1 ▸ List.mem_map_of_mem Prod.fst (List.mem_of_find?_eq_some hf)

theorem mem_keys_groupAccum (rows : List α) (r : α) (hr : r ∈ rows) :
    key r ∈ (groupAccum key rows).map Prod.fst := by
  apply mem_keys_of_groupOf_ne_nil
  rw [groupOf_groupAccum]
  intro hnil
  have : r ∈ rows.filter (fun r' => key r' = key r) :=
    List.mem_filter.2 ⟨hr, by simp⟩
  rw [hnil] at this
  exact List.not_mem_nil _ this

theorem find?_eq_of_mem_nodup (acc : List (κ × List α))
    (hnd : (acc.map Prod.fst).Nodup) (kg : κ × List α) (hkg : kg ∈ acc) :
    acc.find? (fun e => e.1 = kg.1) = some kg := by
  induction acc with
  | nil => cases hkg
  | cons e rest ih =>
    rw [List.map_cons, List.nodup_cons] at hnd
    rcases List.mem_cons.1 hkg with h | h
    · subst h
      rw [List.find?_cons_of_pos _ (by simp)]
    · have hne : e.1 ≠ kg.1 := by
        intro hh
        exact hnd.1 (hh ▸ List.mem_map_of_mem Prod.fst h)
      rw [List.find?_cons_of_neg _ (by simp [hne])]
      exact ih hnd.2 h

theorem group_eq_filter_of_mem (rows : List α) (kg : κ × List α)
    (hkg : kg ∈ groupAccum key rows) :
    kg.2 = rows.filter (fun r => key r = kg.1) := by
  have h1 := find?_eq_of_mem_nodup (groupAccum key rows)
    (keys_groupAccum_nodup key rows) kg hkg
  have h2 : groupOf (groupAccum key rows) kg.1 = kg.2 := by
    rw [groupOf, h1]
  rw [← h2, groupOf_groupAccum]

theorem keys_agg_groups (v1 v2 : α → Int) (groups : List (κ × List α)) :
    (agg_groups v1 v2 groups).map (fun a => a.key) = groups.map Prod.fst := by
  rw [agg_groups, List.map_map]
  rfl

/-- The master specification of a grouped aggregation built by
`agg_groups ∘ groupAccum`: every emitted row aggregates exactly the input
rows bearing its key, every input row's key is represented, and no key is
emitted twice. -/
theorem agg_spec (v1 v2 : α → Int) (rows : List α) :
    (∀ a ∈ agg_groups v1 v2 (groupAccum key rows),
        a.index_score_sum = ((rows.filter (fun r => key r = a.key)).map v1).sum
      ∧ a.weighted_score_sum = ((rows.filter (fun r => key r = a.key)).map v2).sum
      ∧ a.games = (rows.filter (fun r => key r = a.key)).length)
    ∧ (∀ r ∈ rows,
        key r ∈ (agg_groups v1 v2 (groupAccum key rows)).map (fun a => a.key))
    ∧ ((agg_groups v1 v2 (groupAccum key rows)).map (fun a => a.key)).Nodup := by
  refine ⟨?_, ?_, ?_⟩
  · intro a ha
    rw [agg_groups] at ha
    rcases List.mem_map.1 ha with ⟨kg, hkg, hfa⟩
    have hgrp := group_eq_filter_of_mem key rows kg hkg
    subst hfa
    exact ⟨by rw [← hgrp], by rw [← hgrp], by rw [← hgrp]⟩
  · intro r hr
    rw [keys_agg_groups]
    exact mem_keys_groupAccum key rows r hr
  · rw [keys_agg_groups]
    exact keys_groupAccum_nodup key rows

end GroupBy

/-! ## Lemmas for the dense daily calendar and rolling window -/

theorem foldl_min_le_init (xs : List Nat) (a : Nat) : xs.foldl min a ≤ a := by
  induction xs generalizing a with
  | nil => exact Nat.le_refl a
  | cons b bs ih => exact Nat.le_trans (ih (min a b)) (Nat.min_le_left a b)

theorem foldl_min_le_mem (xs : List Nat) (a x : Nat) (hx : x ∈ xs) :
    xs.foldl min a ≤ x := by
  induction xs generalizing a with
  | nil => cases hx
  | cons b bs ih =>
    rcases List.mem_cons.1 hx with h | h
    · subst h
      exact Nat.le_trans (foldl_min_le_init bs (min a x)) (Nat.min_le_right a x)
    · exact ih (min a b) h

theorem datesMin_le (l : List Nat) (x : Nat) (hx : x ∈ l) : datesMin l ≤ x := by
  cases l with
  | nil => cases hx
  | cons a xs =>
    rcases List.mem_cons.1 hx with h | h
    · subst h
      exact foldl_min_le_init xs x
    · exact foldl_min_le_mem xs a x h

theorem init_le_foldl_max (xs : List Nat) (a : Nat) : a ≤ xs.foldl max a := by
  induction xs generalizing a with
  | nil => exact Nat.le_refl a
  | cons b bs ih => exact Nat.le_trans (Nat.le_max_left a b) (ih (max a b))

theorem mem_le_foldl_max (xs : List Nat) (a x : Nat) (hx : x ∈ xs) :
    x ≤ xs.foldl max a := by
  induction xs generalizing a with
  | nil => cases hx
  | cons b bs ih =>
    rcases List.mem_cons.1 hx with h | h
    · subst h
      exact Nat.le_trans (Nat.le_max_right a x) (init_le_foldl_max bs (max a x))
    · exact ih (max a b) h

theorem le_datesMax (l : List Nat) (x : Nat) (hx : x ∈ l) : x ≤ datesMax l := by
  cases l with
  | nil => cases hx
  | cons a xs =>
    rcases List.mem_cons.1 hx with h | h
    · subst h
      exact init_le_foldl_max xs x
    · exact mem_le_foldl_max xs a x h

theorem length_as_sum_ones {α : Type} (l : List α) :
    ((l.map (fun _ => (1 : Int))).sum) = (l.length : Int) := by
  induction l with
  | nil => rfl
  | cons x xs ih =>
    rw [List.map_cons, List.sum_cons, ih, List.length_cons]
    push_cast
    ring

theorem sum_filter_disjoint_or {α : Type} (rows : List α) (p q : α → Bool)
    (v : α → Int) (hdisj : ∀ r, ¬(p r = true ∧ q r = true)) :
    ((rows.filter (fun r => p r || q r)).map v).sum
      = ((rows.filter p).map v).sum + ((rows.filter q).map v).sum := by
  induction rows with
  | nil => rfl
  | cons r rs ih =>
    by_cases hp : p r = true
    · have hq : ¬ q r = true := fun hh => hdisj r ⟨hp, hh⟩
      simp [List.filter_cons, hp, hq, ih]
      omega
    · by_cases hq : q r = true
      · simp [List.filter_cons, hp, hq, ih]
        omega
      · simp [List.filter_cons, hp, hq, ih]

theorem sum_daily_over_days (E : List Nat) (hE : E.Nodup)
    (rows : List DailyInputRow) (v : DailyInputRow → Int) :
    (E.map (fun e => ((rows.filter (fun r => r.1 = e)).map v).sum)).sum
      = ((rows.filter (fun r => decide (r.1 ∈ E))).map v).sum := by
  induction E with
  | nil =>
    have h0 : rows.filter (fun r => decide (r.1 ∈ ([] : List Nat))) = [] := by
      simp
    rw [h0]
    rfl
  | cons e E2 ih =>
    rw [List.map_cons, List.sum_cons]
    rw [List.nodup_cons] at hE
    have hsplit := sum_filter_disjoint_or rows (fun r => decide (r.1 = e))
      (fun r => decide (r.1 ∈ E2)) v
      (fun r hh => hE.1 ((of_decide_eq_true hh.1) ▸ of_decide_eq_true hh.2))
    have hcongr : rows.filter (fun r => decide (r.1 ∈ e :: E2))
        = rows.filter (fun r => decide (r.1 = e) || decide (r.1 ∈ E2)) := by
      apply List.filter_congr
      intro r _
      simp [List.mem_cons]
    rw [hcongr, hsplit, ih hE.2]

theorem drop_range' (s n k : Nat) (h : k ≤ n) :
    (List.range' s n).drop k = List.range' (s + k) (n - k) := by
  have happ : List.range' s k ++ List.range' (s + k) (n - k) = List.range' s n := by
    rw [List.range'_append_1, Nat.sub_add_cancel h]
  have hlen : (List.range' s k).length = k := List.length_range' s 1 k
  rw [← happ]
  have h2 := List.drop_left (List.range' s k) (List.range' (s + k) (n - k))
  rw [hlen] at h2
  exact h2

theorem city_daily_7d_eq (rows : List DailyInputRow) (hne : rows ≠ []) :
    city_daily_7d rows = (List.range (cityDays rows)).map (cityRowAt rows) := by
  unfold city_daily_7d
  rw [if_neg hne]
  rfl

theorem daily_index_sum_eq_filter (rows : List DailyInputRow) (d : Nat) :
    daily_index_sum rows d
      = ((rows.filter (fun r => r.1 = d)).map Prod.snd).sum := by
  rw [daily_index_sum, groupOf_groupAccum]

theorem daily_games_eq_filter (rows : List DailyInputRow) (d : Nat) :
    daily_games rows d = ((rows.filter (fun r => r.1 = d)).length : Int) := by
  rw [daily_games, groupOf_groupAccum]

theorem rolling_window_eq (rows : List DailyInputRow) (v : DailyInputRow → Int)
    (i : Nat) (hi : i < cityDays rows) :
    (((((List.range (cityDays rows)).map
          (fun j => ((rows.filter (fun r => r.1 = cityMinDate rows + j)).map v).sum)).take
        (i + 1)).drop (i - 6)).sum)
      = ((rows.filter (fun r =>
          decide ((cityMinDate rows + i) - 6 ≤ r.1 ∧ r.1 ≤ cityMinDate rows + i))).map
            v).sum := by
  rw [← List.map_take, ← List.map_drop]
  rw [List.take_range, Nat.min_eq_left (by omega)]
  rw [List.range_eq_range', drop_range' 0 (i + 1) (i - 6) (by omega), Nat.zero_add]
  have hcomp : (List.range' (i - 6) (i + 1 - (i - 6))).map
      (fun j => ((rows.filter (fun r => r.1 = cityMinDate rows + j)).map v).sum)
      = ((List.range' (i - 6) (i + 1 - (i - 6))).map (fun j => cityMinDate rows + j)).map
          (fun e => ((rows.filter (fun r => r.1 = e)).map v).sum) := by
    rw [List.map_map]
    rfl
  rw [hcomp, List.map_add_range', sum_daily_over_days _ (List.nodup_range' _ _) rows v]
  apply congrArg List.sum
  apply congrArg (List.map v)
  apply List.filter_congr
  intro r hr
  have hmin : cityMinDate rows ≤ r.1 :=
    datesMin_le (rows.map Prod.fst) r.1 (List.mem_map_of_mem Prod.fst hr)
  rw [decide_eq_decide]
  rw [List.mem_range'_1]
  constructor
  · intro hh
    omega
  · intro hh
    omega

/-- C4: for a non-empty city group, the daily aggregation first reduces to
one row per calendar day (each output row's `index_sum`/`games` aggregate
exactly the input rows of its day — zero for a day with no games), the
output days are the dense calendar from the city's minimum to maximum
observed day, and the 7-day columns are trailing calendar-window sums: they
aggregate exactly the input rows of the previous seven calendar days.
In particular (scenario), a city with games only on day 1 and day 10 has
days 2-9 present as zero rows, and its day-10 rolling sum includes only
day 10 (day 1 is outside the trailing window, which days 8 and 9 show
as 0). -/
theorem C4_daily_rolling_aggregation (rows : List DailyInputRow) (hne : rows ≠ []) :
    ((city_daily_7d rows).map (fun row => row.date)
        = List.range' (cityMinDate rows) (cityDays rows))
    ∧ (∀ row ∈ city_daily_7d rows,
        row.index_sum = ((rows.filter (fun r => r.1 = row.date)).map Prod.snd).sum
      ∧ row.games = ((rows.filter (fun r => r.1 = row.date)).length : Int)
      ∧ row.index_sum_7d = ((rows.filter (fun r =>
            decide (row.date - 6 ≤ r.1 ∧ r.1 ≤ row.date))).map Prod.snd).sum
      ∧ row.games_7d = ((rows.filter (fun r =>
            decide (row.date - 6 ≤ r.1 ∧ r.1 ≤ row.date))).length : Int))
    ∧ ((city_daily_7d [(1, 1), (10, 1)]).map
          (fun r => (r.date, r.index_sum, r.index_sum_7d))
        = [(1, 1, 1), (2, 0, 1), (3, 0, 1), (4, 0, 1), (5, 0, 1), (6, 0, 1),
           (7, 0, 1), (8, 0, 0), (9, 0, 0), (10, 1, 1)]) := by
  refine ⟨?_, ?_, by decide⟩
  · rw [city_daily_7d_eq rows hne, List.map_map]
    show (List.range (cityDays rows)).map (fun i => cityMinDate rows + i) = _
    rw [List.range_eq_range', List.map_add_range', Nat.add_zero]
  · intro row hrow
    rw [city_daily_7d_eq rows hne] at hrow
    rcases List.mem_map.1 hrow with ⟨i, hi, hroweq⟩
    have hi2 : i < cityDays rows := List.mem_range.1 hi
    subst hroweq
    refine ⟨daily_index_sum_eq_filter rows _, daily_games_eq_filter rows _, ?_, ?_⟩
    · show (((cityIndexSeries rows).take (i + 1)).drop (i - 6)).sum = _
      have hser : cityIndexSeries rows
          = (List.range (cityDays rows)).map (fun j =>
              ((rows.filter (fun r => r.1 = cityMinDate rows + j)).map Prod.snd).sum) := by
        rw [cityIndexSeries]
        exact List.map_congr_left (fun j _ => daily_index_sum_eq_filter rows _)
      rw [hser]
      exact rolling_window_eq rows Prod.snd i hi2
    · show (((cityGamesSeries rows).take (i + 1)).drop (i - 6)).sum = _
      have hser : cityGamesSeries rows
          = (List.range (cityDays rows)).map (fun j =>
              ((rows.filter (fun r => r.1 = cityMinDate rows + j)).map
                (fun _ => (1 : Int))).sum) := by
        rw [cityGamesSeries]
        refine List.map_congr_left (fun j _ => ?_)
        rw [daily_games_eq_filter rows _, length_as_sum_ones]
      rw [hser, rolling_window_eq rows (fun _ => (1 : Int)) i hi2, length_as_sum_ones]
      rfl

/-- Witness for C4: the two-game scenario city discharges the non-emptiness
hypothesis. -/
theorem C4_daily_rolling_aggregation_witness :
    (city_daily_7d [(1, 1), (10, 1)]).map (fun row => row.date)
      = List.range' (cityMinDate [(1, 1), (10, 1)]) (cityDays [(1, 1), (10, 1)]) :=
  (C4_daily_rolling_aggregation [(1, 1), (10, 1)] (by decide)).1

/-! ## Lemmas about the city rollup input -/

theorem city_rollup_input_cons_none (teams : List TeamRow) (r : RollupInputRow)
    (rs : List RollupInputRow) (hm : team_to_city teams r.team_id = none) :
    city_rollup_input teams (r :: rs) = city_rollup_input teams rs := by
  rw [city_rollup_input, List.filterMap_cons, hm]
  rfl

theorem city_rollup_input_cons_some (teams : List TeamRow) (r : RollupInputRow)
    (rs : List RollupInputRow) (c2 : String)
    (hm : team_to_city teams r.team_id = some c2) :
    city_rollup_input teams (r :: rs) = (c2, r) :: city_rollup_input teams rs := by
  rw [city_rollup_input, List.filterMap_cons, hm]
  rfl

theorem city_input_filter (teams : List TeamRow) (master : List RollupInputRow)
    (proj : RollupInputRow → String) (c w : String) :
    (city_rollup_input teams master).filter
        (fun cr => decide ((cr.1, proj cr.2) = (c, w)))
      = (master.filter (fun r =>
          decide (team_to_city teams r.team_id = some c ∧ proj r = w))).map
            (fun r => (c, r)) := by
  induction master with
  | nil => rfl
  | cons r rs ih =>
    cases hm : team_to_city teams r.team_id with
    | none =>
      rw [city_rollup_input_cons_none teams r rs hm, ih, List.filter_cons]
      rw [if_neg (by simp [hm])]
    | some c2 =>
      rw [city_rollup_input_cons_some teams r rs c2 hm, List.filter_cons,
        List.filter_cons]
      by_cases hc : c2 = c ∧ proj r = w
      · rw [if_pos (by simp [hc.1, hc.2]), if_pos (by simp [hm, hc.1, hc.2]),
          List.map_cons, ih, hc.1]
      · have hp : ¬((c2, proj r) = (c, w)) :=
          fun hh => hc ⟨congrArg Prod.fst hh, congrArg Prod.snd hh⟩
        have hq : ¬(team_to_city teams r.team_id = some c ∧ proj r = w) := by
          rw [hm]
          intro hh
          exact hc ⟨Option.some.inj hh.1, hh.2⟩
        rw [if_neg (by simpa using hp), if_neg (by simpa using hq)]
        exact ih

theorem city_sum_conv (teams : List TeamRow) (master : List RollupInputRow)
    (proj : RollupInputRow → String) (v : RollupInputRow → Int) (c w : String) :
    (((city_rollup_input teams master).filter
        (fun cr => decide ((cr.1, proj cr.2) = (c, w)))).map (fun cr => v cr.2)).sum
      = ((master.filter (fun r =>
          decide (team_to_city teams r.team_id = some c ∧ proj r = w))).map v).sum := by
  rw [city_input_filter, List.map_map]
  rfl

theorem city_len_conv (teams : List TeamRow) (master : List RollupInputRow)
    (proj : RollupInputRow → String) (c w : String) :
    ((city_rollup_input teams master).filter
        (fun cr => decide ((cr.1, proj cr.2) = (c, w)))).length
      = (master.filter (fun r =>
          decide (team_to_city teams r.team_id = some c ∧ proj r = w))).length := by
  rw [city_input_filter, List.length_map]

/-- C6: for every grouping key of the weekly and monthly rollups — team keys
`(league, team_id, period_start)` and city keys `(city_id, period_start)` —
the rollup row's sums equal the sums of `index_score` and `weighted_score`
over all ledger rows with that key and its `games` equals their count; every
ledger row's key appears in the rollup (for cities: every row whose team has
a city mapping), and no key appears twice. -/
theorem C6_rollup_sums (master : List RollupInputRow) (teams : List TeamRow) :
    (∀ a ∈ team_rollup_weekly master,
        a.index_score_sum = ((master.filter (fun r =>
            decide ((r.league, r.team_id, r.week_start) = a.key))).map
              (fun r => r.index_score)).sum
      ∧ a.weighted_score_sum = ((master.filter (fun r =>
            decide ((r.league, r.team_id, r.week_start) = a.key))).map
              (fun r => r.weighted_score)).sum
      ∧ a.games = (master.filter (fun r =>
            decide ((r.league, r.team_id, r.week_start) = a.key))).length)
    ∧ (∀ r ∈ master, (r.league, r.team_id, r.week_start)
          ∈ (team_rollup_weekly master).map (fun a => a.key))
    ∧ ((team_rollup_weekly master).map (fun a => a.key)).Nodup
    ∧ (∀ a ∈ team_rollup_monthly master,
        a.index_score_sum = ((master.filter (fun r =>
            decide ((r.league, r.team_id, r.month_start) = a.key))).map
              (fun r => r.index_score)).sum
      ∧ a.weighted_score_sum = ((master.filter (fun r =>
            decide ((r.league, r.team_id, r.month_start) = a.key))).map
              (fun r => r.weighted_score)).sum
      ∧ a.games = (master.filter (fun r =>
            decide ((r.league, r.team_id, r.month_start) = a.key))).length)
    ∧ (∀ r ∈ master, (r.league, r.team_id, r.month_start)
          ∈ (team_rollup_monthly master).map (fun a => a.key))
    ∧ ((team_rollup_monthly master).map (fun a => a.key)).Nodup
    ∧ (∀ a ∈ city_rollup_weekly teams master,
        a.index_score_sum = ((master.filter (fun r =>
            decide (team_to_city teams r.team_id = some a.key.1
              ∧ r.week_start = a.key.2))).map (fun r => r.index_score)).sum
      ∧ a.weighted_score_sum = ((master.filter (fun r =>
            decide (team_to_city teams r.team_id = some a.key.1
              ∧ r.week_start = a.key.2))).map (fun r => r.weighted_score)).sum
      ∧ a.games = (master.filter (fun r =>
            decide (team_to_city teams r.team_id = some a.key.1
              ∧ r.week_start = a.key.2))).length)
    ∧ (∀ r ∈ master, ∀ c, team_to_city teams r.team_id = some c →
        (c, r.week_start) ∈ (city_rollup_weekly teams master).map (fun a => a.key))
    ∧ ((city_rollup_weekly teams master).map (fun a => a.key)).Nodup
    ∧ (∀ a ∈ city_rollup_monthly teams master,
        a.index_score_sum = ((master.filter (fun r =>
            decide (team_to_city teams r.team_id = some a.key.1
              ∧ r.month_start = a.key.2))).map (fun r => r.index_score)).sum
      ∧ a.weighted_score_sum = ((master.filter (fun r =>
            decide (team_to_city teams r.team_id = some a.key.1
              ∧ r.month_start = a.key.2))).map (fun r => r.weighted_score)).sum
      ∧ a.games = (master.filter (fun r =>
            decide (team_to_city teams r.team_id = some a.key.1
              ∧ r.month_start = a.key.2))).length)
    ∧ (∀ r ∈ master, ∀ c, team_to_city teams r.team_id = some c →
        (c, r.month_start) ∈ (city_rollup_monthly teams master).map (fun a => a.key))
    ∧ ((city_rollup_monthly teams master).map (fun a => a.key)).Nodup := by
  obtain ⟨tw1, tw2, tw3⟩ := agg_spec
    (fun r : RollupInputRow => (r.league, r.team_id, r.week_start))
    (fun r => r.index_score) (fun r => r.weighted_score) master
  obtain ⟨tm1, tm2, tm3⟩ := agg_spec
    (fun r : RollupInputRow => (r.league, r.team_id, r.month_start))
    (fun r => r.index_score) (fun r => r.weighted_score) master
  obtain ⟨cw1, cw2, cw3⟩ := agg_spec
    (fun cr : String × RollupInputRow => (cr.1, cr.2.week_start))
    (fun cr => cr.2.index_score) (fun cr => cr.2.weighted_score)
    (city_rollup_input teams master)
  obtain ⟨cm1, cm2, cm3⟩ := agg_spec
    (fun cr : String × RollupInputRow => (cr.1, cr.2.month_start))
    (fun cr => cr.2.index_score) (fun cr => cr.2.weighted_score)
    (city_rollup_input teams master)
  refine ⟨tw1, tw2, tw3, tm1, tm2, tm3, ?_, ?_, cw3, ?_, ?_, cm3⟩
  · intro a ha
    obtain ⟨h1, h2, h3⟩ := cw1 a ha
    exact ⟨h1.trans (city_sum_conv teams master (fun r => r.week_start)
        (fun r => r.index_score) a.key.1 a.key.2),
      h2.trans (city_sum_conv teams master (fun r => r.week_start)
        (fun r => r.weighted_score) a.key.1 a.key.2),
      h3.trans (city_len_conv teams master (fun r => r.week_start)
        a.key.1 a.key.2)⟩
  · intro r hr c hm
    have hmem : (c, r) ∈ city_rollup_input teams master :=
      List.mem_filterMap.2 ⟨r, hr, by rw [hm]; rfl⟩
    exact cw2 (c, r) hmem
  · intro a ha
    obtain ⟨h1, h2, h3⟩ := cm1 a ha
    exact ⟨h1.trans (city_sum_conv teams master (fun r => r.month_start)
        (fun r => r.index_score) a.key.1 a.key.2),
      h2.trans (city_sum_conv teams master (fun r => r.month_start)
        (fun r => r.weighted_score) a.key.1 a.key.2),
      h3.trans (city_len_conv teams master (fun r => r.month_start)
        a.key.1 a.key.2)⟩
  · intro r hr c hm
    have hmem : (c, r) ∈ city_rollup_input teams master :=
      List.mem_filterMap.2 ⟨r, hr, by rw [hm]; rfl⟩
    exact cm2 (c, r) hmem

/-! ## Lemmas about name splitting -/

theorem dropWhile_head_not {α : Type} (p : α → Bool) (l : List α) (x : α)
    (xs : List α) (h : l.dropWhile p = x :: xs) : p x = false := by
  induction l with
  | nil => cases h
  | cons c cs ih =>
    rw [List.dropWhile_cons] at h
    by_cases hc : p c = true
    · rw [if_pos hc] at h
      exact ih h
    · rw [if_neg hc] at h
      have : c = x := (List.cons.injEq _ _ _ _ ▸ h).1
      rw [← this]
      exact Bool.not_eq_true _ ▸ hc

theorem pyStrip_endsWith_space_false (s : String) :
    pyEndsWith (pyStrip s) " " = false := by
  rw [pyEndsWith]
  apply decide_eq_false
  intro h
  have h2 : (" ").data <:+ stripChars s.data := h
  obtain ⟨pre, hpre⟩ := h2
  have h3 : ((s.data.dropWhile Char.isWhitespace).reverse.dropWhile Char.isWhitespace)
      = ' ' :: pre.reverse := by
    have h4 := congrArg List.reverse hpre
    rw [stripChars] at h4
    rw [List.reverse_reverse, List.reverse_append] at h4
    exact h4.symm
  have h5 := dropWhile_head_not Char.isWhitespace _ _ _ h3
  exact absurd h5 (by decide)

theorem nicknames_suffix_unique (name : String) (n1 n2 : String)
    (h1 : n1 ∈ MULTIWORD_NICKNAMES) (h2 : n2 ∈ MULTIWORD_NICKNAMES)
    (s1 : pyEndsWith name n1 = true) (s2 : pyEndsWith name n2 = true) :
    n1 = n2 := by
  have hs1 : n1.data <:+ name.data := of_decide_eq_true s1
  have hs2 : n2.data <:+ name.data := of_decide_eq_true s2
  have hfact : ∀ a ∈ MULTIWORD_NICKNAMES, ∀ b ∈ MULTIWORD_NICKNAMES,
      a.data <:+ b.data → a = b := by decide
  rcases List.suffix_or_suffix_of_suffix hs1 hs2 with h | h
  · exact hfact n1 h1 n2 h2 h
  · exact (hfact n2 h2 n1 h1 h).symm

theorem rsplitLastSpaceAux_none (cs : List Char)
    (h : rsplitLastSpaceAux cs = none) : ' ' ∉ cs := by
  induction cs with
  | nil => exact List.not_mem_nil _
  | cons c cs2 ih =>
    rw [rsplitLastSpaceAux] at h
    cases haux : rsplitLastSpaceAux cs2 with
    | some p => rw [haux] at h; cases h
    | none =>
      rw [haux] at h
      by_cases hc : c = ' '
      · rw [if_pos hc] at h
        cases h
      · rw [if_neg hc] at h
        intro hmem
        rcases List.mem_cons.1 hmem with hh | hh
        · exact hc hh.symm
        · exact ih haux hh

theorem rsplitLastSpaceAux_some (cs l r : List Char)
    (h : rsplitLastSpaceAux cs = some (l, r)) :
    cs = l ++ ' ' :: r ∧ ' ' ∉ r := by
  induction cs generalizing l r with
  | nil => cases h
  | cons c cs2 ih =>
    rw [rsplitLastSpaceAux] at h
    cases haux : rsplitLastSpaceAux cs2 with
    | some p =>
      rw [haux] at h
      have h2 : some ((c :: p.1, p.2) : List Char × List Char) = some (l, r) := h
      have h3 := Option.some.inj h2
      have hl1 : c :: p.1 = l := congrArg Prod.fst h3
      have hl2 : p.2 = r := congrArg Prod.snd h3
      obtain ⟨hp1, hp2⟩ := ih p.1 p.2 haux
      constructor
      · rw [← hl1, ← hl2, List.cons_append, ← hp1]
      · rw [← hl2]
        exact hp2
    | none =>
      rw [haux] at h
      by_cases hc : c = ' '
      · rw [if_pos hc] at h
        have h3 := Option.some.inj h
        have hl1 : ([] : List Char) = l := congrArg Prod.fst h3
        have hl2 : cs2 = r := congrArg Prod.snd h3
        constructor
        · rw [← hl1, ← hl2, List.nil_append, hc]
        · rw [← hl2]
          exact rsplitLastSpaceAux_none cs2 haux
      · rw [if_neg hc] at h
        cases h

theorem split_city_team_empty (nicks : List String) (name : String)
    (h : pyStrip name = "") : split_city_team nicks name = ("", "") := by
  unfold split_city_team
  rw [if_pos h]

theorem split_city_team_found (nicks : List String) (name nick : String)
    (h0 : ¬ pyStrip name = "")
    (hfind : nicks.find? (fun n => pyEndsWith (pyStrip name) n) = some nick) :
    split_city_team nicks name
      = (pyStrip (pySliceDropRight (pyStrip name) nick.length), nick) := by
  have hcity := pyStrip_endsWith_space_false (pySliceDropRight (pyStrip name) nick.length)
  unfold split_city_team
  rw [if_neg h0, hfind]
  simp [hcity]

theorem split_city_team_fallback_space (nicks : List String) (name : String)
    (h0 : ¬ pyStrip name = "")
    (hfind : nicks.find? (fun n => pyEndsWith (pyStrip name) n) = none)
    (hsp : ' ' ∈ (pyStrip name).data) :
    split_city_team nicks name = rsplitLastSpace (pyStrip name) := by
  unfold split_city_team
  rw [if_neg h0, hfind]
  simp [hsp]

theorem split_city_team_fallback_nospace (nicks : List String) (name : String)
    (h0 : ¬ pyStrip name = "")
    (hfind : nicks.find? (fun n => pyEndsWith (pyStrip name) n) = none)
    (hsp : ' ' ∉ (pyStrip name).data) :
    split_city_team nicks name = (pyStrip name, "") := by
  unfold split_city_team
  rw [if_neg h0, hfind]
  simp [hsp]

theorem rsplitLastSpace_eq (s : String) (pr : List Char × List Char)
    (haux : rsplitLastSpaceAux s.data = some pr) :
    rsplitLastSpace s = (⟨pr.1⟩, ⟨pr.2⟩) := by
  unfold rsplitLastSpace
  rw [haux]

/-- C9: the city/nickname split of a non-empty name returns a curated
multi-word nickname exactly when the name ends with it, and at most one
curated nickname can match a given name (so the set check — a Python set
iterated in arbitrary order — is deterministic and equivalent to
longest-suffix match); when no curated nickname matches, the name splits at
its last whitespace boundary.  "Vegas Golden Knights" resolves to city
"Vegas" and "Toronto Maple Leafs" to city "Toronto". -/
theorem C9_split_city_team_spec :
    (∀ name city nick : String,
        split_city_team MULTIWORD_NICKNAMES name = (city, nick) →
        nick ∈ MULTIWORD_NICKNAMES →
        pyEndsWith (pyStrip name) nick = true
        ∧ ∀ nick2 ∈ MULTIWORD_NICKNAMES,
            pyEndsWith (pyStrip name) nick2 = true → nick2 = nick)
    ∧ (∀ name : String, pyStrip name ≠ "" →
        (∀ nick ∈ MULTIWORD_NICKNAMES, pyEndsWith (pyStrip name) nick = false) →
        ' ' ∈ (pyStrip name).data →
        ∃ pre post : List Char,
          (pyStrip name).data = pre ++ ' ' :: post ∧ ' ' ∉ post ∧
          split_city_team MULTIWORD_NICKNAMES name = (⟨pre⟩, ⟨post⟩))
    ∧ split_city_team MULTIWORD_NICKNAMES "Vegas Golden Knights"
        = ("Vegas", "Golden Knights")
    ∧ split_city_team MULTIWORD_NICKNAMES "Toronto Maple Leafs"
        = ("Toronto", "Maple Leafs") := by
  refine ⟨?_, ?_, by decide, by decide⟩
  · intro name city nick heq hmem
    by_cases h0 : pyStrip name = ""
    · rw [split_city_team_empty _ _ h0] at heq
      have hn : ("" : String) = nick := congrArg Prod.snd heq
      rw [← hn] at hmem
      exact absurd hmem (by decide)
    · cases hfind : MULTIWORD_NICKNAMES.find? (fun n => pyEndsWith (pyStrip name) n) with
      | some n2 =>
        rw [split_city_team_found _ _ _ h0 hfind] at heq
        have hn : n2 = nick := congrArg Prod.snd heq
        have hsuf : pyEndsWith (pyStrip name) n2 = true := List.find?_some hfind
        refine ⟨hn ▸ hsuf, ?_⟩
        intro nick2 hm2 hs2
        rw [← hn]
        exact nicknames_suffix_unique (pyStrip name) nick2 n2 hm2
          (List.mem_of_find?_eq_some hfind) hs2 hsuf
      | none =>
        have hnone := List.find?_eq_none.1 hfind
        by_cases hsp : ' ' ∈ (pyStrip name).data
        · rw [split_city_team_fallback_space _ _ h0 hfind hsp] at heq
          cases haux : rsplitLastSpaceAux (pyStrip name).data with
          | none => exact absurd hsp (rsplitLastSpaceAux_none _ haux)
          | some pr =>
            rw [rsplitLastSpace_eq _ pr haux] at heq
            have hn : (⟨pr.2⟩ : String) = nick := congrArg Prod.snd heq
            obtain ⟨hsplit, _⟩ := rsplitLastSpaceAux_some _ pr.1 pr.2 haux
            have hsufl : nick.data <:+ (pyStrip name).data := by
              rw [← hn]
              refine ⟨pr.1 ++ [' '], ?_⟩
              rw [hsplit, List.append_assoc]
              rfl
            have htrue : pyEndsWith (pyStrip name) nick = true := decide_eq_true hsufl
            exact absurd htrue (by simpa using hnone nick hmem)
        · rw [split_city_team_fallback_nospace _ _ h0 hfind hsp] at heq
          have hn : ("" : String) = nick := congrArg Prod.snd heq
          rw [← hn] at hmem
          exact absurd hmem (by decide)
  · intro name h0 hnick hsp
    have hfind : MULTIWORD_NICKNAMES.find? (fun n => pyEndsWith (pyStrip name) n) = none := by
      refine List.find?_eq_none.2 (fun x hx => ?_)
      rw [hnick x hx]
      exact Bool.false_ne_true
    rw [split_city_team_fallback_space _ _ h0 hfind hsp]
    cases haux : rsplitLastSpaceAux (pyStrip name).data with
    | none => exact absurd hsp (rsplitLastSpaceAux_none _ haux)
    | some pr =>
      obtain ⟨hsplit, hnos⟩ := rsplitLastSpaceAux_some _ pr.1 pr.2 haux
      exact ⟨pr.1, pr.2, hsplit, hnos, rsplitLastSpace_eq _ pr haux⟩

/-- Witness for C9: the concrete Vegas split discharges the membership and
suffix hypotheses of the uniqueness clause. -/
theorem C9_split_city_team_spec_witness :
    pyEndsWith (pyStrip "Vegas Golden Knights") "Golden Knights" = true
    ∧ ∀ nick2 ∈ MULTIWORD_NICKNAMES,
        pyEndsWith (pyStrip "Vegas Golden Knights") nick2 = true →
          nick2 = "Golden Knights" :=
  C9_split_city_team_spec.1 "Vegas Golden Knights" "Vegas" "Golden Knights"
    (by decide) (by decide)

/-- Witness for C6: a one-row ledger's team key appears in the weekly
rollup. -/
theorem C6_rollup_sums_witness :
    ("nhl", "a", "w1")
      ∈ (team_rollup_weekly [⟨"nhl", "a", "w1", "m1", 1, 3⟩]).map (fun a => a.key) :=
  (C6_rollup_sums [⟨"nhl", "a", "w1", "m1", 1, 3⟩] []).2.1
    ⟨"nhl", "a", "w1", "m1", 1, 3⟩ (List.mem_cons_self _ _)
